import Mathlib

/-!
Verification development for the persona inference engine of the
reddit-persona-analysis repository (src/persona_analyzer.py).

Strings are modelled as lists of characters (`Str`).  The external
capabilities used by the engine (the NLTK word tokenizer and stopword
table, the VADER sentiment scorer, and `datetime.fromisoformat`) are
modelled as parameters collected in an `Env` record, following the
spec's designation of sentiment scoring and tokenization as external
capability boundaries.  Case mapping is modelled on the ASCII range
(`Char.toLower`/`Char.toUpper`), matching the behaviour of Python's
`str.lower`/`str.upper` on ASCII text.  Python's float arithmetic in
score normalization is modelled by exact rational/natural arithmetic
(the quotients are of small integers).
-/

namespace RedditPersona

/-- Strings, modelled at character level. -/
abbrev Str := List Char

/-- The apostrophe character. -/
def apos : Char := Char.ofNat 39

/-- Builds a string containing apostrophes by joining the parts with `'`. -/
def aposJoin (parts : List String) : Str :=
  List.intercalate [apos] (parts.map String.toList)

/-- Python `str.lower` (ASCII model). -/
def pyLower (s : Str) : Str := s.map Char.toLower

/-- Python whitespace characters (the ASCII part matched by `\s` and stripped by `str.strip`). -/
def isPySpace (c : Char) : Bool :=
  c = ' ' || c = '\t' || c = '\n' || c = '\r' || c = '\x0b' || c = '\x0c'

/-- Python `str.strip`. -/
def pyStrip (s : Str) : Str :=
  ((s.dropWhile isPySpace).reverse.dropWhile isPySpace).reverse

/-- Python `str.capitalize`: first character uppercased, the rest lowercased. -/
def pyCapitalize (s : Str) : Str :=
  match s with
  | [] => []
  | c :: rest => Char.toUpper c :: pyLower rest

/-- A word character in the sense of the regex `\w` (ASCII model). -/
def isWordChar (c : Char) : Bool := c.isAlphanum || c = '_'

/-- Sentence-terminating punctuation of the split regex `[.!?]\s+`. -/
def isSentEnd (c : Char) : Bool := c = '.' || c = '!' || c = '?'

theorem lengthDropWhileLe (p : Char → Bool) (l : Str) : (l.dropWhile p).length ≤ l.length := by
  induction l with
  | nil => simp [List.dropWhile]
  | cons c rest ih =>
    simp only [List.dropWhile]
    cases p c <;> simp <;> omega

/-- Whether a string starts with a whitespace character. -/
def headIsWS (s : Str) : Bool :=
  match s with
  | [] => false
  | c :: _ => isPySpace c

/-- `re.split(r'[.!?]\s+', text)`: split at a punctuation character followed by
a maximal nonempty whitespace run, dropping the separator.  The scanners in
this file recurse on an explicit fuel (initialized to more than the input
length; every step consumes at least one character, so the fuel never runs
out), keeping them reducible by evaluation. -/
def splitSentencesFuel (fuel : Nat) (acc : Str) (s : Str) : List Str :=
  match fuel with
  | 0 => [acc.reverse]
  | fuel + 1 =>
    match s with
    | [] => [acc.reverse]
    | c :: rest =>
      if isSentEnd c && headIsWS rest then
        acc.reverse :: splitSentencesFuel fuel [] (rest.dropWhile isPySpace)
      else
        splitSentencesFuel fuel (c :: acc) rest

/-- `re.split(r'[.!?]\s+', text)`. -/
def splitSentences (s : Str) : List Str := splitSentencesFuel (s.length + 1) [] s

/-- Python's substring test `needle in hay`. -/
def isSubstr (needle : Str) : Str → Bool
  | [] => needle.isEmpty
  | c :: rest => needle.isPrefixOf (c :: rest) || isSubstr needle rest

/-- Case-insensitive literal match: consumes `lit` from the front of `s`
(comparing lowercased characters) and returns the rest. -/
def matchLitCI : Str → Str → Option Str
  | [], s => some s
  | _ :: _, [] => none
  | k :: ks, c :: cs => if k.toLower = c.toLower then matchLitCI ks cs else none

/-- Case-sensitive literal match. -/
def matchLitCS : Str → Str → Option Str
  | [], s => some s
  | _ :: _, [] => none
  | k :: ks, c :: cs => if k = c then matchLitCS ks cs else none

/-- Word-ness of the character just after a match position (`false` at end of input). -/
def headIsWord (s : Str) : Bool :=
  match s with
  | [] => false
  | c :: _ => isWordChar c

/-- Counts non-overlapping, leftmost matches of `re.findall(r'\b' + kw + r'\b', text,
re.IGNORECASE)`.  `prevWord` is the word-ness of the character before the current
position (`false` at the start).  Case-insensitive matching preserves word-ness, so
the boundary checks use the keyword's own end characters. -/
def countWBFuel (kw : Str) (fuel : Nat) (prevWord : Bool) (s : Str) : Nat :=
  match fuel with
  | 0 => 0
  | fuel + 1 =>
    match s with
    | [] => 0
    | c :: rest =>
      if xor prevWord (isWordChar (kw.headD ' ')) then
        match matchLitCI kw (c :: rest) with
        | some after =>
          if xor (isWordChar (kw.getLastD ' ')) (headIsWord after) then
            1 + countWBFuel kw fuel (isWordChar (kw.getLastD ' '))
              ((c :: rest).drop (max 1 kw.length))
          else
            countWBFuel kw fuel (isWordChar c) rest
        | none => countWBFuel kw fuel (isWordChar c) rest
      else
        countWBFuel kw fuel (isWordChar c) rest

/-- `len(re.findall(r'\b' + re.escape(kw) + r'\b', text, re.IGNORECASE))`. -/
def countWB (kw : Str) (text : Str) : Nat := countWBFuel kw (text.length + 1) false text

/-- `re.search(r'\b' + re.escape(kw) + r'\b', text, re.IGNORECASE)` as a Boolean. -/
def hasWB (kw : Str) (text : Str) : Bool := decide (0 < countWB kw text)

/-- Clause-boundary characters of the capture class `[^.,!?;]`. -/
def isClauseEnd (c : Char) : Bool := c = '.' || c = ',' || c = '!' || c = '?' || c = ';'

/-- Tries the template regex `\b<lit>\s+([^.,!?;]+)` at the current position
(case-insensitively), returning `group(0)` and the number of consumed characters.
When the greedy `[^.,!?;]+` finds nothing, the regex backtracks one whitespace
character out of `\s+` into the capture (possible only when the run has length
at least two). -/
def tmplTryAt (lit : Str) (prevWord : Bool) (s : Str) : Option (Str × Nat) :=
  if prevWord then none
  else
    match matchLitCI lit s with
    | none => none
    | some rest1 =>
      let ws := rest1.takeWhile isPySpace
      if ws.length = 0 then none
      else
        let rest2 := rest1.drop ws.length
        let cap := rest2.takeWhile (fun c => ¬ isClauseEnd c)
        if cap.length ≠ 0 then
          let k := lit.length + ws.length + cap.length
          some (s.take k, k)
        else if 2 ≤ ws.length then
          let k := lit.length + ws.length
          some (s.take k, k)
        else none

/-- `re.finditer` of the template `\b<lit>\s+([^.,!?;]+)`: scans left to right,
resuming after the end of each match; collects the `group(0)` strings. -/
def findTemplatesFuel (lit : Str) (fuel : Nat) (prevWord : Bool) (s : Str) : List Str :=
  match fuel with
  | 0 => []
  | fuel + 1 =>
    match s with
    | [] => []
    | c :: rest =>
      match tmplTryAt lit prevWord (c :: rest) with
      | some (g0, k) =>
        g0 :: findTemplatesFuel lit fuel (isWordChar (g0.getLastD ' '))
          ((c :: rest).drop (max 1 k))
      | none => findTemplatesFuel lit fuel (isWordChar c) rest

/-- All `group(0)` matches of `\b<lit>\s+([^.,!?;]+)` in `text`. -/
def findTemplates (lit : Str) (text : Str) : List Str :=
  findTemplatesFuel lit (text.length + 1) false text

/-- A parsed `datetime` value: `day` is the day number of the date (days since
1970-01-01, a Thursday) and `sec` the second within the day. -/
structure DT where
  day : Int
  sec : Nat
deriving DecidableEq, Repr

/-- Total seconds of a datetime, the sort and subtraction key. -/
def dtKey (d : DT) : Int := d.day * 86400 + d.sec

/-- Weekday names as produced by `strftime('%A')`. -/
def dayNames : List Str :=
  ["Monday".toList, "Tuesday".toList, "Wednesday".toList, "Thursday".toList,
   "Friday".toList, "Saturday".toList, "Sunday".toList]

/-- `ts.strftime('%A')`, derived from the day number. -/
def dtWeekday (d : DT) : Str := dayNames.getD ((d.day + 3).emod 7).toNat []

/-- `ts.hour`. -/
def dtHour (d : DT) : Nat := d.sec / 3600

/-- The external capabilities of the engine: the NLTK tokenizer and stopword
table, the VADER sentiment proportions and `datetime.fromisoformat` (returning
`none` where the library call raises). -/
structure Env where
  wordTokenize : Str → Finset Str
  stopWords : Finset Str
  negScore : Str → ℚ
  posScore : Str → ℚ
  parseTS : Str → Option DT

/-- A normalized text record, built once from a post or comment
(`persona_analyzer.py`, `analyze`, lines 142-165). -/
structure TextItem where
  text : Str
  source : Str
  url : Str
  subreddit : Str
  created_utc : Str
  score : Int
deriving DecidableEq, Repr

/-- The stopword-filtered word set of a text, as used by `_text_similarity`:
`set(word_tokenize(text.lower())).difference(stop_words)`. -/
def wordsOf (env : Env) (t : Str) : Finset Str :=
  (env.wordTokenize (pyLower t)) \ env.stopWords

/-- `PersonaAnalyzer._text_similarity` (lines 839-865): Jaccard similarity of the
tokenized, lowercased, stopword-filtered word sets, with 0 when either set is
empty. -/
def textSimilarity (env : Env) (t1 t2 : Str) : ℚ :=
  let words1 := wordsOf env t1
  let words2 := wordsOf env t2
  if words1 = ∅ ∨ words2 = ∅ then 0
  else
    let intersection : Nat := (words1 ∩ words2).card
    let union : Nat := (words1 ∪ words2).card
    if 0 < union then (intersection : ℚ) / (union : ℚ) else 0

/-! ## Keyword and template configuration (loaded once in `__init__`) -/

/-- `self.frustration_keywords`. -/
def frustrationKeywords : List Str :=
  ["annoying".toList, "frustrating".toList, "hate".toList, "tired of".toList,
   "sick of".toList, "annoyed".toList, "difficult".toList, "problem".toList,
   "issue".toList, "struggle".toList, "challenging".toList, "impossible".toList,
   "irritating".toList, "bothers".toList, "fed up".toList, "upset".toList,
   "angry".toList, "disappointed".toList]

/-- `self.motivation_keywords` (configured in `__init__` but unused by the pipeline). -/
def motivationKeywords : List Str :=
  ["love".toList, "enjoy".toList, "passionate".toList, "excited".toList,
   "interested".toList, "hobby".toList, "favorite".toList, "like".toList,
   "appreciate".toList, "value".toList, "important".toList, "care about".toList,
   "goal".toList, "dream".toList, "aspire".toList, "hope".toList, "wish".toList,
   "want".toList, "desire".toList]

/-- `self.goal_keywords`. -/
def goalKeywords : List Str :=
  ["goal".toList, "plan".toList, "aim".toList, "objective".toList, "target".toList,
   "aspiration".toList, "ambition".toList, "dream".toList, "hope".toList,
   "want to".toList, "would like to".toList, "trying to".toList, "working on".toList,
   "looking to".toList, "intend to".toList, "need to".toList, "must".toList,
   "should".toList]

/-- `self.habit_keywords`. -/
def habitKeywords : List Str :=
  ["always".toList, "usually".toList, "often".toList, "regularly".toList,
   "routine".toList, "habit".toList, "daily".toList, "weekly".toList,
   "monthly".toList, "every day".toList, "every week".toList, "every month".toList,
   "constantly".toList, "frequently".toList, "rarely".toList, "never".toList,
   "sometimes".toList, "occasionally".toList]

/-- The literal parts of the habit template regexes of `_extract_behaviors_and_habits`
(they are matched with `re.IGNORECASE` on lowercased text, so the literals are stored
lowercased). -/
def habitTemplates : List Str :=
  ["i always".toList, "i usually".toList, "i often".toList, "i never".toList,
   "i regularly".toList, "i tend to".toList, "i like to".toList]

/-- The literal parts of the frustration template regexes of `_extract_frustrations`. -/
def frustrationTemplates : List Str :=
  ["i hate".toList, aposJoin ["i can", "t stand"], aposJoin ["i", "m tired of"],
   aposJoin ["i", "m sick of"], aposJoin ["it", "s frustrating"], "it annoys me".toList]

/-- The literal parts of the goal template regexes of `_extract_goals_and_needs`. -/
def goalTemplates : List Str :=
  ["i want to".toList, "i need to".toList, "my goal is".toList,
   aposJoin ["i", "m trying to"], "i hope to".toList, "i wish i could".toList]

/-! ## Deduplicating fact miner -/

/-- An extracted fact `{'description': ..., 'citation': item}`. -/
structure Fact where
  description : Str
  citation : TextItem
deriving DecidableEq, Repr

/-- The description stored for an accepted candidate: `cand.strip().capitalize()`. -/
def descOf (cand : Str) : Str := pyCapitalize (pyStrip cand)

/-- The mining state: the raw accepted texts (the membership set used for
deduplication) and the accepted facts in discovery order. -/
structure MineState where
  keys : List Str
  facts : List Fact
deriving DecidableEq, Repr

/-- Processes one candidate: rejected when its similarity to some already
accepted text exceeds 0.7, otherwise recorded in the set and appended as a fact
(source pattern `if not any(self._text_similarity(c, b) > 0.7 for b in texts)`). -/
def pushFact (env : Env) (item : TextItem) (st : MineState) (cand : Str) : MineState :=
  if st.keys.any (fun b => decide (mkRat 7 10 < textSimilarity env cand b)) then st
  else ⟨cand :: st.keys, st.facts ++ [⟨descOf cand, item⟩]⟩

/-- Strategy (a) candidates: for each keyword present in the text, the sentences
containing it whose length exceeds `minLen` (source: nested keyword/sentence
loops with `if keyword in sentence and len(sentence) > minLen`). -/
def keywordSentenceCands (kws : List Str) (minLen : Nat) (text : Str) : List Str :=
  kws.bind fun kw =>
    if isSubstr kw text then
      (splitSentences text).filter (fun s => isSubstr kw s && decide (minLen < s.length))
    else []

/-- Strategy (b) candidates: template matches, prefixed with `pre` (`"I "` for
habits, empty otherwise) and filtered by `len(candidate) > minLen`. -/
def templateCands (pre : Str) (lits : List Str) (minLen : Nat) (text : Str) : List Str :=
  lits.bind fun lit =>
    (findTemplates lit text).filterMap fun g0 =>
      let cand := pre ++ g0
      if minLen < cand.length then some cand else none

/-- One item's step of `_extract_behaviors_and_habits` (lines 402-457):
keyword-anchored sentences (length > 20), then habit templates
(`habit = "I " + group(0)`, length > 10). -/
def behaviorStep (env : Env) (st : MineState) (item : TextItem) : MineState :=
  let text := pyLower item.text
  ((keywordSentenceCands habitKeywords 20 text) ++
   (templateCands "I ".toList habitTemplates 10 text)).foldl (pushFact env item) st

/-- `PersonaAnalyzer._extract_behaviors_and_habits`, returning `behaviors[:10]`. -/
def extractBehaviorsAndHabits (env : Env) (items : List TextItem) : List Fact :=
  ((items.foldl (behaviorStep env) ⟨[], []⟩).facts).take 10

/-- One item's step of `_extract_frustrations` (lines 459-518): the
keyword-anchored scan (length > 15) runs only when the item's whole-text
negative sentiment exceeds 0.2; the frustration templates (length > 10) always run. -/
def frustrationStep (env : Env) (st : MineState) (item : TextItem) : MineState :=
  let text := pyLower item.text
  let st1 :=
    if mkRat 1 5 < env.negScore text then
      (keywordSentenceCands frustrationKeywords 15 text).foldl (pushFact env item) st
    else st
  (templateCands [] frustrationTemplates 10 text).foldl (pushFact env item) st1

/-- `PersonaAnalyzer._extract_frustrations`, returning `frustrations[:10]`. -/
def extractFrustrations (env : Env) (items : List TextItem) : List Fact :=
  ((items.foldl (frustrationStep env) ⟨[], []⟩).facts).take 10

/-- One item's step of `_extract_goals_and_needs` (lines 587-641). -/
def goalStep (env : Env) (st : MineState) (item : TextItem) : MineState :=
  let text := pyLower item.text
  ((keywordSentenceCands goalKeywords 15 text) ++
   (templateCands [] goalTemplates 10 text)).foldl (pushFact env item) st

/-- `PersonaAnalyzer._extract_goals_and_needs`, returning `goals[:10]`. -/
def extractGoalsAndNeeds (env : Env) (items : List TextItem) : List Fact :=
  ((items.foldl (goalStep env) ⟨[], []⟩).facts).take 10

/-! ### Ghost-instrumented frustration miner

The tagged variant records which strategy produced each fact; it erases to
`extractFrustrations` (proved below) and carries the provenance needed to state
that strategy-(a) facts only arise from sentiment-gated items. -/

/-- The mining strategy that produced a fact: (a) keyword-anchored sentence or
(b) first-person template. -/
inductive Strat where
  | a
  | b
deriving DecidableEq, Repr

/-- Tagged mining state. -/
structure MineStateT where
  keys : List Str
  facts : List (Fact × Strat)
deriving DecidableEq, Repr

/-- `pushFact` with a provenance tag. -/
def pushFactT (tag : Strat) (env : Env) (item : TextItem) (st : MineStateT) (cand : Str) :
    MineStateT :=
  if st.keys.any (fun b => decide (mkRat 7 10 < textSimilarity env cand b)) then st
  else ⟨cand :: st.keys, st.facts ++ [(⟨descOf cand, item⟩, tag)]⟩

/-- `frustrationStep` with provenance tags. -/
def frustrationStepT (env : Env) (st : MineStateT) (item : TextItem) : MineStateT :=
  let text := pyLower item.text
  let st1 :=
    if mkRat 1 5 < env.negScore text then
      (keywordSentenceCands frustrationKeywords 15 text).foldl (pushFactT .a env item) st
    else st
  (templateCands [] frustrationTemplates 10 text).foldl (pushFactT .b env item) st1

/-- Tagged `_extract_frustrations`. -/
def extractFrustrationsTagged (env : Env) (items : List TextItem) : List (Fact × Strat) :=
  ((items.foldl (frustrationStepT env) ⟨[], []⟩).facts).take 10

/-! ## Motivation scorer (`_extract_motivations`, lines 520-585) -/

/-- One motivation category: evidence score and citations. -/
structure MotCat where
  score : Nat
  citations : List TextItem
deriving DecidableEq, Repr

/-- The six motivation categories, in the fixed table order. -/
structure Motivations where
  convenience : MotCat
  wellness : MotCat
  speed : MotCat
  preferences : MotCat
  comfort : MotCat
  dietary_needs : MotCat
deriving DecidableEq, Repr

/-- `category_keywords['convenience']`. -/
def convenienceKeywords : List Str :=
  ["convenient".toList, "easy".toList, "simple".toList, "quick".toList,
   "efficient".toList, "hassle-free".toList, "straightforward".toList]

/-- `category_keywords['wellness']`. -/
def wellnessKeywords : List Str :=
  ["healthy".toList, "nutrition".toList, "fitness".toList, "wellbeing".toList,
   "exercise".toList, "diet".toList, "organic".toList, "natural".toList]

/-- `category_keywords['speed']`. -/
def speedKeywords : List Str :=
  ["fast".toList, "quick".toList, "rapid".toList, "instant".toList,
   "immediate".toList, "promptly".toList, "speedily".toList, "swift".toList]

/-- `category_keywords['preferences']`. -/
def preferencesKeywords : List Str :=
  ["prefer".toList, "like".toList, "enjoy".toList, "favorite".toList,
   "choice".toList, "rather".toList, "option".toList, "selection".toList]

/-- `category_keywords['comfort']`. -/
def comfortKeywords : List Str :=
  ["comfortable".toList, "cozy".toList, "relaxing".toList, "pleasant".toList,
   "soothing".toList, "satisfying".toList, "content".toList]

/-- `category_keywords['dietary_needs']`. -/
def dietaryNeedsKeywords : List Str :=
  ["vegetarian".toList, "vegan".toList, "gluten-free".toList, "dairy-free".toList,
   "allergy".toList, "intolerance".toList, "diet".toList]

/-- Updates one category for one item: for each category keyword present in the
text, each sentence containing it with positive sentiment above 0.1 increments
the score and attaches the item as a citation when not already attached. -/
def motUpdateCat (env : Env) (item : TextItem) (text : Str) (kws : List Str)
    (c : MotCat) : MotCat :=
  kws.foldl (fun c kw =>
    if isSubstr kw text then
      (splitSentences text).foldl (fun c sentence =>
        if isSubstr kw sentence && decide (mkRat 1 10 < env.posScore sentence) then
          ⟨c.score + 1, if item ∈ c.citations then c.citations else c.citations ++ [item]⟩
        else c) c
    else c) c

/-- The corpus pass of `_extract_motivations`, producing the raw evidence
counters and citations (lines 550-572; the whole-item sentiment computed at
line 555 is unused by the category loop). -/
def extractMotivationsRaw (env : Env) (items : List TextItem) : Motivations :=
  items.foldl (fun m item =>
    let text := pyLower item.text
    { convenience := motUpdateCat env item text convenienceKeywords m.convenience
      wellness := motUpdateCat env item text wellnessKeywords m.wellness
      speed := motUpdateCat env item text speedKeywords m.speed
      preferences := motUpdateCat env item text preferencesKeywords m.preferences
      comfort := motUpdateCat env item text comfortKeywords m.comfort
      dietary_needs := motUpdateCat env item text dietaryNeedsKeywords m.dietary_needs })
    ⟨⟨0, []⟩, ⟨0, []⟩, ⟨0, []⟩, ⟨0, []⟩, ⟨0, []⟩, ⟨0, []⟩⟩

/-- The six raw counters in table order. -/
def motRawList (m : Motivations) : List Nat :=
  [m.convenience.score, m.wellness.score, m.speed.score,
   m.preferences.score, m.comfort.score, m.dietary_needs.score]

/-- `max_score = max(...) if any(cat['score'] > 0 ...) else 1`. -/
def motMax (m : Motivations) : Nat :=
  if (motRawList m).any (fun s => decide (0 < s)) then (motRawList m).foldl max 0 else 1

/-- Normalizes one category: `min(10, int((raw / max_score) * 10)) if max_score > 0
else 0` (exact rational model of the float quotient), citations capped at 3. -/
def motNormalize (maxScore : Nat) (c : MotCat) : MotCat :=
  ⟨if 0 < maxScore then min 10 ((10 * c.score) / maxScore) else 0, c.citations.take 3⟩

/-- `PersonaAnalyzer._extract_motivations` (corpus pass then normalization). -/
def extractMotivations (env : Env) (items : List TextItem) : Motivations :=
  let raw := extractMotivationsRaw env items
  let maxScore := motMax raw
  { convenience := motNormalize maxScore raw.convenience
    wellness := motNormalize maxScore raw.wellness
    speed := motNormalize maxScore raw.speed
    preferences := motNormalize maxScore raw.preferences
    comfort := motNormalize maxScore raw.comfort
    dietary_needs := motNormalize maxScore raw.dietary_needs }

/-! ## Personality dimension scorer (`_analyze_personality`, lines 643-707) -/

/-- One personality dimension: score (0 left pole, 100 right pole) and citations. -/
structure PersonalityDim where
  score : Nat
  citations : List TextItem
deriving DecidableEq, Repr

/-- The four bipolar axes, in the fixed table order. -/
structure Personality where
  introvert_extrovert : PersonalityDim
  intuition_sensing : PersonalityDim
  feeling_thinking : PersonalityDim
  perceiving_judging : PersonalityDim
deriving DecidableEq, Repr

/-- `personality_dimensions['introvert_extrovert']['introvert']`. -/
def introvertKeywords : List Str :=
  ["quiet".toList, "shy".toList, "reserved".toList, "private".toList,
   "alone".toList, "introvert".toList, "solitude".toList, "independent".toList]

/-- `personality_dimensions['introvert_extrovert']['extrovert']`. -/
def extrovertKeywords : List Str :=
  ["outgoing".toList, "social".toList, "talkative".toList, "energetic".toList,
   "extrovert".toList, "people person".toList, "party".toList, "group".toList]

/-- `personality_dimensions['intuition_sensing']['intuition']`. -/
def intuitionKeywords : List Str :=
  ["abstract".toList, "theoretical".toList, "imagine".toList, "possibility".toList,
   "future".toList, "innovative".toList, "creative".toList]

/-- `personality_dimensions['intuition_sensing']['sensing']`. -/
def sensingKeywords : List Str :=
  ["practical".toList, "detail".toList, "fact".toList, "reality".toList,
   "present".toList, "concrete".toList, "specific".toList, "literal".toList]

/-- `personality_dimensions['feeling_thinking']['feeling']`. -/
def feelingKeywords : List Str :=
  ["emotion".toList, "feel".toList, "empathy".toList, "compassion".toList,
   "harmony".toList, "value".toList, "personal".toList]

/-- `personality_dimensions['feeling_thinking']['thinking']`. -/
def thinkingKeywords : List Str :=
  ["logic".toList, "rational".toList, "objective".toList, "analyze".toList,
   "principle".toList, "fair".toList, "reasonable".toList]

/-- `personality_dimensions['perceiving_judging']['perceiving']`. -/
def perceivingKeywords : List Str :=
  ["flexible".toList, "adaptable".toList, "spontaneous".toList, "open-ended".toList,
   "casual".toList, "improvise".toList]

/-- `personality_dimensions['perceiving_judging']['judging']`. -/
def judgingKeywords : List Str :=
  ["organized".toList, "plan".toList, "structure".toList, "decisive".toList,
   "systematic".toList, "orderly".toList, "schedule".toList]

/-- `all_text = ' '.join(item['text'].lower() for item in text_items)`. -/
def personalityAllText (items : List TextItem) : Str :=
  List.intercalate " ".toList (items.map (fun it => pyLower it.text))

/-- Whole-corpus word-boundary occurrence count of one keyword list. -/
def dimCount (kws : List Str) (t : Str) : Nat :=
  kws.foldl (fun n kw => n + countWB kw t) 0

/-- Citations for one axis: items whose text matches any keyword (left keywords
first, then right, each scanning the items in corpus order), appended once. -/
def dimCitations (kws : List Str) (items : List TextItem) : List TextItem :=
  kws.foldl (fun cits kw =>
    items.foldl (fun cits item =>
      if hasWB kw (pyLower item.text) then
        if item ∈ cits then cits else cits ++ [item]
      else cits) cits) []

/-! ### Binary64 model of `(right_count / total) * 100`

CPython evaluates the quotient and the product in IEEE-754 binary64.  Both
operations are correctly rounded (round to nearest, ties to even), so each
yields the representable rational nearest to the exact value; the model below
computes that nearest value exactly, representing a nonnegative double as a
mantissa/exponent pair `(m, e)` of value `m * 2 ^ (e - 52)` with
`m ∈ [2^52, 2^53]`.  For the arguments arising here (`right_count ≤ total`) the
quotient lies in `[0, 1]` and the product in `[0, 100]`, so overflow never
occurs; gradual underflow cannot change the truncated result either, because a
subnormal intermediate forces the final value below 1, which truncates to 0 in
the model and in binary64 alike. -/

/-- Floor of the base-2 logarithm, fuel-based so that the kernel can reduce it
(the first argument is the fuel; `n` halves each step, so `n` itself
suffices). -/
def natLog2F : Nat → Nat → Nat
  | 0, _ => 0
  | fuel + 1, n => if 2 ≤ n then natLog2F fuel (n / 2) + 1 else 0

/-- `⌊log₂ n⌋` (0 at 0). -/
def natLog2 (n : Nat) : Nat := natLog2F n n

/-- `2 ^ e ≤ n / d`, decided by cross-multiplication. -/
def le2pow (n d : Nat) (e : Int) : Bool :=
  if 0 ≤ e then Nat.ble (d * 2 ^ e.toNat) n else Nat.ble d (n * 2 ^ (-e).toNat)

/-- `⌊log₂ (n / d)⌋` for positive `n` and `d`: the candidate
`⌊log₂ n⌋ - ⌊log₂ d⌋` overestimates by at most one, and the guarded
corrections settle it. -/
def ilog2ND (n d : Nat) : Int :=
  let e0 : Int := (natLog2 n : Int) - (natLog2 d : Int)
  if le2pow n d e0 = false then e0 - 1
  else if le2pow n d (e0 + 1) = true then e0 + 1
  else e0

/-- Round `a / b` (with `b > 0`) to the nearest natural number, ties to
even. -/
def rne (a b : Nat) : Nat :=
  let f := a / b
  let r := a % b
  if 2 * r < b then f
  else if b < 2 * r then f + 1
  else if f % 2 = 0 then f else f + 1

/-- The binary64 value nearest to `n / d` (round to nearest, ties to even) as a
mantissa/exponent pair: the exact quotient is scaled into `[2^52, 2^53)` and
the mantissa is its correct rounding (a carry to `2^53` leaves the value, the
only thing used here, exact). -/
def f64ofND (n d : Nat) : Nat × Int :=
  if n = 0 ∨ d = 0 then (0, 0)
  else
    let e := ilog2ND n d
    if e ≤ 52 then (rne (n * 2 ^ (52 - e).toNat) d, e)
    else (rne n (d * 2 ^ (e - 52).toNat), e)

/-- `100 ·` the value of a binary64 pair, as an exact numerator/denominator
pair (the float `100` is exactly representable, so the product rounds the
exact rational `value · 100`). -/
def f64scale100 (p : Nat × Int) : Nat × Nat :=
  if p.2 ≤ 52 then (p.1 * 100, 2 ^ (52 - p.2).toNat)
  else (p.1 * 100 * 2 ^ (p.2 - 52).toNat, 1)

/-- `int()` of a nonnegative binary64 pair: truncation toward zero. -/
def f64trunc (p : Nat × Int) : Nat :=
  if p.2 ≤ 52 then p.1 / 2 ^ (52 - p.2).toNat
  else p.1 * 2 ^ (p.2 - 52).toNat

/-- `int((r / t) * 100)` exactly as CPython evaluates it for ints `r ≤ t`,
`t > 0`: the true division is the correctly rounded binary64 quotient, the
product with `100` is correctly rounded again, and `int()` truncates.  This
differs from the exact `⌊100 * r / t⌋`: at `r = 29`, `t = 100` binary64 gives
`int(28.999999999999996) = 28`, not 29. -/
def pyPercent (r t : Nat) : Nat :=
  let q := f64ofND r t
  let s := f64scale100 q
  f64trunc (f64ofND s.1 s.2)

/-- One axis of `_analyze_personality`: the score defaults to 50 and is
`int((right_count / total) * 100)` when `total > 0`, both float operations
modelled exactly by `pyPercent`; citations capped at 3. -/
def mkDim (leftKws rightKws : List Str) (items : List TextItem) : PersonalityDim :=
  let t := personalityAllText items
  let leftCount := dimCount leftKws t
  let rightCount := dimCount rightKws t
  let score := if 0 < leftCount + rightCount
    then pyPercent rightCount (leftCount + rightCount) else 50
  ⟨score, (dimCitations (leftKws ++ rightKws) items).take 3⟩

/-- `PersonaAnalyzer._analyze_personality`. -/
def analyzePersonality (items : List TextItem) : Personality :=
  { introvert_extrovert := mkDim introvertKeywords extrovertKeywords items
    intuition_sensing := mkDim intuitionKeywords sensingKeywords items
    feeling_thinking := mkDim feelingKeywords thinkingKeywords items
    perceiving_judging := mkDim perceivingKeywords judgingKeywords items }

/-! ## Demographic extractor (`_extract_demographics`, lines 327-400)

The compiled patterns of `__init__` are modelled by bespoke matchers with the
backtracking behaviour of `re` (leftmost match, alternatives in written order,
greedy quantifiers giving back only as the continuation requires). -/

/-- First alternative of `Option`, in regex alternation order. -/
def firstSome {α β : Type} (f : α → Option β) : List α → Option β
  | [] => none
  | x :: xs => match f x with | some y => some y | none => firstSome f xs

/-- Generic leftmost-match scanner: tries the pattern at every position from the
left, tracking the word-ness of the previous character for `\b`. -/
def scanFor {β : Type} (tryAt : Bool → Str → Option β) (prevWord : Bool) (s : Str) :
    Option β :=
  match tryAt prevWord s with
  | some v => some v
  | none =>
    match s with
    | [] => none
    | c :: rest => scanFor tryAt (isWordChar c) rest

/-- Numeric value of a digit character. -/
def digitVal (c : Char) : Nat := c.toNat - 48

/-- Age unit branch `years?\s+old` with the final `\b`, the `s?` taken.
Returns the consumed length. -/
def ageUnitYearsOld (s : Str) : Option Nat :=
  match matchLitCI "years".toList s with
  | none => none
  | some r1 =>
    let ws := r1.takeWhile isPySpace
    if ws.length = 0 then none
    else
      match matchLitCI "old".toList (r1.drop ws.length) with
      | some r2 => if headIsWord r2 then none else some (5 + ws.length + 3)
      | none => none

/-- Age unit branch `years?\s+old` with the final `\b`, the `s?` not taken. -/
def ageUnitYearOld (s : Str) : Option Nat :=
  match matchLitCI "year".toList s with
  | none => none
  | some r1 =>
    let ws := r1.takeWhile isPySpace
    if ws.length = 0 then none
    else
      match matchLitCI "old".toList (r1.drop ws.length) with
      | some r2 => if headIsWord r2 then none else some (4 + ws.length + 3)
      | none => none

/-- Age unit branch `y\.o\.` with the final `\b` ('.' is not a word character,
so the boundary here requires a following word character). -/
def ageUnitYO (s : Str) : Option Nat :=
  match matchLitCI "y.o.".toList s with
  | some r => if headIsWord r then some 4 else none
  | none => none

/-- The age unit alternation `(?:years?\s+old|yo|y\.o\.)\b`, alternatives in
written order with fall-through on boundary failure. -/
def ageUnitTry (s : Str) : Option Nat :=
  match ageUnitYearsOld s with
  | some k => some k
  | none =>
    match ageUnitYearOld s with
    | some k => some k
    | none =>
      match matchLitCI "yo".toList s with
      | some r => if headIsWord r then ageUnitYO s else some 2
      | none => ageUnitYO s

/-- `\s*` then the age unit; returns the consumed length. -/
def ageTail (s : Str) : Option Nat :=
  let ws := s.takeWhile isPySpace
  match ageUnitTry (s.drop ws.length) with
  | some k => some (ws.length + k)
  | none => none

/-- One leading alternative of the age pattern: `<lit>\s+(\d{1,2})\s*<unit>\b`,
`\d{1,2}` greedy with fallback from two digits to one.  Returns the age value
and the total consumed length. -/
def ageTryLit (lit : Str) (s : Str) : Option (Nat × Nat) :=
  match matchLitCI lit s with
  | none => none
  | some r1 =>
    let ws1 := r1.takeWhile isPySpace
    if ws1.length = 0 then none
    else
      match r1.drop ws1.length with
      | [] => none
      | d1 :: rest1 =>
        if d1.isDigit then
          let oneDigit : Option (Nat × Nat) :=
            match ageTail rest1 with
            | some k => some (digitVal d1, lit.length + ws1.length + 1 + k)
            | none => none
          match rest1 with
          | d2 :: rest2 =>
            if d2.isDigit then
              match ageTail rest2 with
              | some k => some (digitVal d1 * 10 + digitVal d2, lit.length + ws1.length + 2 + k)
              | none => oneDigit
            else oneDigit
          | [] => oneDigit
        else none

/-- The age pattern `\b(?:I am|I'm)\s+(?P<age>\d{1,2})\s*(?:years?\s+old|yo|y\.o\.)\b`
(`re.IGNORECASE`) tried at one position. -/
def ageTryAt (prevWord : Bool) (s : Str) : Option (Nat × Nat) :=
  if prevWord then none
  else
    match ageTryLit "i am".toList s with
    | some r => some r
    | none => ageTryLit (aposJoin ["i", "m"]) s

/-- `self.age_pattern.search(text)`: the age group of the leftmost match. -/
def ageSearch (text : Str) : Option Nat :=
  (scanFor ageTryAt false text).map Prod.fst

/-- `re.finditer` for the age pattern: all non-overlapping matches, resuming
after each match end (used to exhibit later matches that `search` never sees). -/
def ageFindAllFuel (fuel : Nat) (prevWord : Bool) (s : Str) : List Nat :=
  match fuel with
  | 0 => []
  | fuel + 1 =>
    match s with
    | [] => []
    | c :: rest =>
      match ageTryAt prevWord (c :: rest) with
      | some (a, k) =>
        a :: ageFindAllFuel fuel (isWordChar (((c :: rest).take (max 1 k)).getLastD ' '))
          ((c :: rest).drop (max 1 k))
      | none => ageFindAllFuel fuel (isWordChar c) rest

/-- All age-pattern matches in a text. -/
def ageFindAll (text : Str) : List Nat := ageFindAllFuel (text.length + 1) false text

/-- ASCII `[A-Z]`. -/
def isUpperAZ (c : Char) : Bool := 'A' ≤ c && c ≤ 'Z'

/-- ASCII `[a-z]`. -/
def isLowerAZ (c : Char) : Bool := 'a' ≤ c && c ≤ 'z'

/-- Greedily collects further ` [A-Z][a-z]+` repetitions of the location capture. -/
def locToksFuel (fuel : Nat) (s : Str) (acc : List Str) : List Str × Str :=
  match fuel with
  | 0 => (acc, s)
  | fuel + 1 =>
    match s with
    | ' ' :: c :: rest =>
      if isUpperAZ c then
        let lows := rest.takeWhile isLowerAZ
        if lows.length ≠ 0 then
          locToksFuel fuel (rest.drop lows.length) (acc ++ [c :: lows])
        else (acc, s)
      else (acc, s)
    | _ => (acc, s)

/-- Greedy collection of further location-capture repetitions. -/
def locToksAux (s : Str) (acc : List Str) : List Str × Str :=
  locToksFuel (s.length + 1) s acc

/-- The location capture `(?P<location>[A-Z][a-z]+(?: [A-Z][a-z]+)*)\b`.  When the
trailing `\b` fails after the greedy parse (a word character follows the last
token), shrinking a `[a-z]+` run always leaves a lowercase letter adjacent, so
the regex backtracks by dropping the last repetition, after which the boundary
falls on the separating space and succeeds. -/
def locCapTry (s : Str) : Option Str :=
  match s with
  | [] => none
  | c :: rest =>
    if isUpperAZ c then
      let lows := rest.takeWhile isLowerAZ
      if lows.length ≠ 0 then
        let (toks, after) := locToksAux (rest.drop lows.length) [c :: lows]
        if ¬ headIsWord after then some (List.intercalate " ".toList toks)
        else if 2 ≤ toks.length then some (List.intercalate " ".toList toks.dropLast)
        else none
      else none
    else none

/-- `<lit>\s+<capture>` for one alternative of the location pattern (case-sensitive). -/
def locAfterLit (lit : Str) (s : Str) : Option Str :=
  match matchLitCS lit s with
  | none => none
  | some r1 =>
    let ws := r1.takeWhile isPySpace
    if ws.length = 0 then none else locCapTry (r1.drop ws.length)

/-- The expanded alternatives of `\b(?:I (?:am from|live in|reside in|currently in))`. -/
def locLits : List Str :=
  ["I am from".toList, "I live in".toList, "I reside in".toList, "I currently in".toList]

/-- `self.location_pattern.search(text)`: the location group of the leftmost match. -/
def locSearch (text : Str) : Option Str :=
  scanFor (fun pw s => if pw then none else firstSome (fun lit => locAfterLit lit s) locLits)
    false text

/-- One `\s+[a-z]+` repetition of the occupation capture (with `re.IGNORECASE`,
`[a-z]` matches any ASCII letter).  Returns the matched slice and the rest. -/
def occRep (s : Str) : Option (Str × Str) :=
  let ws := s.takeWhile isPySpace
  if ws.length = 0 then none
  else
    match s.drop ws.length with
    | [] => none
    | c :: rest =>
      if c.isAlpha then
        let lows := rest.takeWhile Char.isAlpha
        some (ws ++ c :: lows, rest.drop lows.length)
      else none

/-- The occupation capture `(?P<occupation>[a-z]+(?:\s+[a-z]+){0,2})\b`
(greedy `{0,2}`, dropping repetitions while the trailing `\b` fails, by the
same backtracking argument as for the location capture). -/
def occCapTry (s : Str) : Option Str :=
  match s with
  | [] => none
  | c :: rest =>
    if c.isAlpha then
      let lows := rest.takeWhile Char.isAlpha
      let seg1 := c :: lows
      let after1 := rest.drop lows.length
      match occRep after1 with
      | none => if headIsWord after1 then none else some seg1
      | some (seg2, after2) =>
        match occRep after2 with
        | none =>
          if ¬ headIsWord after2 then some (seg1 ++ seg2)
          else if headIsWord after1 then none else some seg1
        | some (seg3, after3) =>
          if ¬ headIsWord after3 then some (seg1 ++ seg2 ++ seg3)
          else some (seg1 ++ seg2)
    else none

/-- `(?:an?|the)\s+<capture>`, one article alternative. -/
def occAfterArticle (art : Str) (s : Str) : Option Str :=
  match matchLitCI art s with
  | none => none
  | some r2 =>
    let ws2 := r2.takeWhile isPySpace
    if ws2.length = 0 then none else occCapTry (r2.drop ws2.length)

/-- `<lit>\s+(?:an?|the)\s+<capture>` for one leading alternative of the
occupation pattern. -/
def occAfterLit (lit : Str) (s : Str) : Option Str :=
  match matchLitCI lit s with
  | none => none
  | some r1 =>
    let ws := r1.takeWhile isPySpace
    if ws.length = 0 then none
    else
      firstSome (fun art => occAfterArticle art (r1.drop ws.length))
        ["an".toList, "a".toList, "the".toList]

/-- The expanded alternatives of `\b(?:I (?:am|work as|am employed as))`. -/
def occLits : List Str :=
  ["i am".toList, "i work as".toList, "i am employed as".toList]

/-- `self.occupation_pattern.search(text)`: the occupation group of the leftmost match. -/
def occSearch (text : Str) : Option Str :=
  scanFor (fun pw s => if pw then none else firstSome (fun lit => occAfterLit lit s) occLits)
    false text

/-- `<lit>\s+<indicator>\b` for one leading alternative of a status pattern. -/
def statusAfterLit (lit ind : Str) (s : Str) : Option Unit :=
  match matchLitCI lit s with
  | none => none
  | some r1 =>
    let ws := r1.takeWhile isPySpace
    if ws.length = 0 then none
    else
      match matchLitCI ind (r1.drop ws.length) with
      | some r2 => if headIsWord r2 then none else some ()
      | none => none

/-- `re.compile(r'\b(?:I am|I\'m|my)\s+' + re.escape(ind) + r'\b', re.IGNORECASE)
.search(text)` as a Boolean. -/
def statusSearch (ind : Str) (text : Str) : Bool :=
  (scanFor (fun pw s =>
      if pw then none
      else firstSome (fun lit => statusAfterLit lit ind s)
        ["i am".toList, aposJoin ["i", "m"], "my".toList])
    false text).isSome

/-- The `status_indicators` table, in the source's insertion order. -/
def statusTable : List (Str × List Str) :=
  [("single".toList,
    ["single".toList, "bachelor".toList, "bachelorette".toList, "unmarried".toList,
     "not married".toList]),
   ("married".toList,
    ["married".toList, "wife".toList, "husband".toList, "spouse".toList]),
   ("in a relationship".toList,
    ["girlfriend".toList, "boyfriend".toList, "partner".toList, "in a relationship".toList]),
   ("divorced".toList,
    ["divorced".toList, "ex-wife".toList, "ex-husband".toList, "ex spouse".toList]),
   ("widowed".toList,
    ["widowed".toList, "widow".toList, "widower".toList])]

/-- The occupation stoplist of common false positives. -/
def occupationStoplist : List Str :=
  ["a".toList, "the".toList, "just".toList, "really".toList, "very".toList,
   "quite".toList, "actually".toList]

/-- Python truthiness of an optional integer (`None` and `0` are falsy). -/
def truthyIntOpt : Option Int → Bool
  | none => false
  | some n => n ≠ 0

/-- Python truthiness of an optional string (`None` and `''` are falsy). -/
def truthyStrOpt : Option Str → Bool
  | none => false
  | some s => ¬ s.isEmpty

/-- A demographic field holding an integer value. -/
structure AgeField where
  value : Option Int
  confidence : ℚ
  citation : Option TextItem
deriving DecidableEq, Repr

/-- A demographic field holding a string value. -/
structure StrField where
  value : Option Str
  confidence : ℚ
  citation : Option TextItem
deriving DecidableEq, Repr

/-- The four demographic fields. -/
structure Demographics where
  age : AgeField
  location : StrField
  occupation : StrField
  status : StrField
deriving DecidableEq, Repr

/-- The initial demographics record (all values `None`, confidence 0). -/
def demoInit : Demographics :=
  ⟨⟨none, 0, none⟩, ⟨none, 0, none⟩, ⟨none, 0, none⟩, ⟨none, 0, none⟩⟩

/-- The age block of `_extract_demographics`: set only when the field is unset
(Python truthiness) and the first match's value lies in 13..90 inclusive. -/
def demoAgeStep (d : Demographics) (item : TextItem) : Demographics :=
  match ageSearch item.text with
  | some a =>
    if ¬ truthyIntOpt d.age.value then
      if 13 ≤ a ∧ a ≤ 90 then { d with age := ⟨some (a : Int), mkRat 9 10, some item⟩ } else d
    else d
  | none => d

/-- The location block: overwrite while the field is falsy or its confidence is
below 0.8. -/
def demoLocStep (d : Demographics) (item : TextItem) : Demographics :=
  match locSearch item.text with
  | some loc =>
    if ¬ truthyStrOpt d.location.value || decide (d.location.confidence < mkRat 8 10) then
      { d with location := ⟨some loc, mkRat 8 10, some item⟩ }
    else d
  | none => d

/-- The occupation block: stoplist-filtered, overwrite while the field is falsy
or its confidence is below 0.7. -/
def demoOccStep (d : Demographics) (item : TextItem) : Demographics :=
  match occSearch item.text with
  | some occ =>
    if ¬ truthyStrOpt d.occupation.value || decide (d.occupation.confidence < mkRat 7 10) then
      if (pyLower occ) ∈ occupationStoplist then d
      else { d with occupation := ⟨some occ, mkRat 7 10, some item⟩ }
    else d
  | none => d

/-- The status block: the categories in table order, each indicator searched;
overwrite while the field is falsy or its confidence is below 0.75. -/
def demoStatusStep (d : Demographics) (item : TextItem) : Demographics :=
  statusTable.foldl (fun d p =>
    p.2.foldl (fun d ind =>
      if statusSearch ind item.text &&
         (¬ truthyStrOpt d.status.value || decide (d.status.confidence < mkRat 3 4)) then
        { d with status := ⟨some p.1, mkRat 3 4, some item⟩ }
      else d) d) d

/-- One item's pass of `_extract_demographics`: the four blocks in source order. -/
def demoStep (d : Demographics) (item : TextItem) : Demographics :=
  demoStatusStep (demoOccStep (demoLocStep (demoAgeStep d item) item) item) item

/-- `PersonaAnalyzer._extract_demographics`. -/
def extractDemographics (items : List TextItem) : Demographics :=
  items.foldl demoStep demoInit

/-! ## Activity summarizer (`_get_active_subreddits`, `_analyze_posting_frequency`) -/

/-- `collections.Counter` update: increments an existing key in place, otherwise
appends a fresh entry (keys stay in first-insertion order). -/
def ctrAdd {α : Type} [DecidableEq α] (acc : List (α × Nat)) (x : α) : List (α × Nat) :=
  if acc.any (fun p => decide (p.1 = x)) then
    acc.map (fun p => if p.1 = x then (p.1, p.2 + 1) else p)
  else acc ++ [(x, 1)]

/-- Builds a `Counter` from a list. -/
def counterOf {α : Type} [DecidableEq α] (l : List α) : List (α × Nat) :=
  l.foldl ctrAdd []

/-- Stable insertion for descending-count order: a new entry goes after all
entries with count greater than or equal to its own. -/
def insertByCountDesc {α : Type} (x : α × Nat) : List (α × Nat) → List (α × Nat)
  | [] => [x]
  | y :: rest => if x.2 ≤ y.2 then y :: insertByCountDesc x rest else x :: y :: rest

/-- Stable sort by count descending (ties keep insertion order, as in
`Counter.most_common`). -/
def sortByCountDesc {α : Type} (l : List (α × Nat)) : List (α × Nat) :=
  l.foldl (fun acc x => insertByCountDesc x acc) []

/-- `Counter.most_common(n)`. -/
def mostCommon {α : Type} (n : Nat) (ctr : List (α × Nat)) : List (α × Nat) :=
  (sortByCountDesc ctr).take n

/-- A raw post record with all fields optional (`post.get` semantics). -/
structure Post where
  title : Option Str
  text : Option Str
  url : Option Str
  subreddit : Option Str
  created_utc : Option Str
  score : Option Int
deriving DecidableEq, Repr

/-- A raw comment record with all fields optional. -/
structure Comment where
  body : Option Str
  url : Option Str
  subreddit : Option Str
  created_utc : Option Str
  score : Option Int
deriving DecidableEq, Repr

/-- The raw `user_info` record with all fields optional. -/
structure UserInfo where
  name : Option Str
  created_utc : Option Str
  comment_karma : Option Int
  link_karma : Option Int
  is_gold : Option Bool
  is_mod : Option Bool
deriving DecidableEq, Repr

/-- An `active_subreddits` entry `{'name': ..., 'count': ...}`. -/
structure SubCount where
  name : Str
  count : Nat
deriving DecidableEq, Repr

/-- The subreddit counter over posts then comments (`if subreddit:` skips
missing and empty names). -/
def subredditCtr (posts : List Post) (comments : List Comment) : List (Str × Nat) :=
  let c1 := posts.foldl (fun ctr p =>
    match p.subreddit with
    | some s => if ¬ s.isEmpty then ctrAdd ctr s else ctr
    | none => ctr) []
  comments.foldl (fun ctr c =>
    match c.subreddit with
    | some s => if ¬ s.isEmpty then ctrAdd ctr s else ctr
    | none => ctr) c1

/-- `PersonaAnalyzer._get_active_subreddits` (lines 220-249): top 10 by count. -/
def getActiveSubreddits (posts : List Post) (comments : List Comment) : List SubCount :=
  (mostCommon 10 (subredditCtr posts comments)).map (fun p => ⟨p.1, p.2⟩)

/-- A `most_active_days` entry. -/
structure DayCount where
  day : Str
  count : Nat
deriving DecidableEq, Repr

/-- A `most_active_hours` entry. -/
structure HourCount where
  hour : Nat
  count : Nat
deriving DecidableEq, Repr

/-- The `posting_frequency` record. -/
structure PostingFrequency where
  activity_level : Str
  most_active_days : List DayCount
  most_active_hours : List HourCount
deriving DecidableEq, Repr

/-- Parseable timestamps of the posts, in order (`if created_utc:` skips missing
and empty strings; parse failures are swallowed). -/
def tsOfPosts (env : Env) (posts : List Post) : List DT :=
  posts.filterMap (fun p =>
    match p.created_utc with
    | some s => if ¬ s.isEmpty then env.parseTS s else none
    | none => none)

/-- Parseable timestamps of the comments, in order. -/
def tsOfComments (env : Env) (comments : List Comment) : List DT :=
  comments.filterMap (fun c =>
    match c.created_utc with
    | some s => if ¬ s.isEmpty then env.parseTS s else none
    | none => none)

/-- Stable ascending insertion by the datetime key. -/
def insertTS (x : DT) : List DT → List DT
  | [] => [x]
  | y :: rest => if dtKey y ≤ dtKey x then y :: insertTS x rest else x :: y :: rest

/-- `timestamps.sort()` (stable, ascending). -/
def sortTS (l : List DT) : List DT :=
  l.foldl (fun acc x => insertTS x acc) []

/-- `PersonaAnalyzer._analyze_posting_frequency` (lines 251-325): with no
parseable timestamps the record is `'Unknown'` with empty lists; otherwise the
tier is Low below 10, Moderate below 50, else High, with top-3 weekday and hour
histograms. -/
def analyzePostingFrequency (env : Env) (posts : List Post) (comments : List Comment) :
    PostingFrequency :=
  let timestamps := tsOfPosts env posts ++ tsOfComments env comments
  if timestamps.isEmpty then ⟨"Unknown".toList, [], []⟩
  else
    let sorted := sortTS timestamps
    let dayCtr := counterOf (sorted.map dtWeekday)
    let hourCtr := counterOf (sorted.map dtHour)
    let level :=
      if timestamps.length < 10 then "Low".toList
      else if timestamps.length < 50 then "Moderate".toList
      else "High".toList
    ⟨level,
     (mostCommon 3 dayCtr).map (fun p => ⟨p.1, p.2⟩),
     (mostCommon 3 hourCtr).map (fun p => ⟨p.1, p.2⟩)⟩

/-- The plural suffix of the account-age f-string. -/
def pluralS (n : Int) : Str := if n ≠ 1 then "s".toList else []

/-- Decimal rendering of an integer. -/
def intStr (i : Int) : Str := (toString i).toList

/-- `PersonaAnalyzer._calculate_account_age` (lines 191-218): `"Unknown"` for a
falsy or unparsable timestamp; otherwise years/months from the floored day
difference, with Python floor division and nonnegative modulus. -/
def calculateAccountAge (env : Env) (now : DT) (created : Option Str) : Str :=
  match created with
  | none => "Unknown".toList
  | some s =>
    if s.isEmpty then "Unknown".toList
    else
      match env.parseTS s with
      | none => "Unknown".toList
      | some c =>
        let days : Int := (dtKey now - dtKey c).fdiv 86400
        let years := days.fdiv 365
        let months := (days.fmod 365).fdiv 30
        if 0 < years then
          intStr years ++ " year".toList ++ pluralS years ++ " ".toList ++
            intStr months ++ " month".toList ++ pluralS months
        else
          intStr months ++ " month".toList ++ pluralS months

/-! ## Archetype classifier (`_determine_archetype`, lines 709-837) -/

/-- One archetype with its trait keywords and affinity subreddits. -/
structure ArchetypeDef where
  name : Str
  traits : List Str
  subreddits : List Str
deriving DecidableEq, Repr

/-- The fixed 12-archetype table, in the source's insertion order. -/
def archetypeTable : List ArchetypeDef :=
  [⟨"The Creator".toList,
    ["creative".toList, "artistic".toList, "innovative".toList, "expressive".toList,
     "original".toList],
    ["art".toList, "design".toList, "writing".toList, "crafts".toList, "DIY".toList,
     "photography".toList]⟩,
   ⟨"The Caregiver".toList,
    ["nurturing".toList, "supportive".toList, "helpful".toList, "compassionate".toList,
     "generous".toList],
    ["parenting".toList, "relationships".toList, "caregiving".toList, "nursing".toList,
     "teaching".toList]⟩,
   ⟨"The Explorer".toList,
    ["adventurous".toList, "curious".toList, "independent".toList, "free-spirited".toList,
     "pioneering".toList],
    ["travel".toList, "hiking".toList, "outdoors".toList, "backpacking".toList,
     "camping".toList, "EarthPorn".toList]⟩,
   ⟨"The Sage".toList,
    ["knowledgeable".toList, "wise".toList, "analytical".toList, "thoughtful".toList,
     "intellectual".toList],
    ["science".toList, "philosophy".toList, "history".toList, "askscience".toList,
     "explainlikeimfive".toList]⟩,
   ⟨"The Rebel".toList,
    ["unconventional".toList, "revolutionary".toList, "disruptive".toList,
     "challenging".toList, "radical".toList],
    ["unpopularopinion".toList, "changemyview".toList, "politics".toList,
     "conspiracy".toList]⟩,
   ⟨"The Hero".toList,
    ["brave".toList, "determined".toList, "resilient".toList, "protective".toList,
     "strong".toList],
    ["fitness".toList, "GetMotivated".toList, "MilitaryStories".toList,
     "HumansBeingBros".toList]⟩,
   ⟨"The Jester".toList,
    ["humorous".toList, "playful".toList, "entertaining".toList, "light-hearted".toList,
     "witty".toList],
    ["funny".toList, "jokes".toList, "memes".toList, "humor".toList,
     "standupcomedy".toList]⟩,
   ⟨"The Everyman".toList,
    ["relatable".toList, "authentic".toList, "grounded".toList, "practical".toList,
     "regular".toList],
    ["CasualConversation".toList, "AskReddit".toList, "NoStupidQuestions".toList,
     "TooAfraidToAsk".toList]⟩,
   ⟨"The Ruler".toList,
    ["organized".toList, "controlling".toList, "responsible".toList,
     "authoritative".toList, "structured".toList],
    ["personalfinance".toList, "productivity".toList, "leadership".toList,
     "business".toList]⟩,
   ⟨"The Magician".toList,
    ["transformative".toList, "visionary".toList, "insightful".toList,
     "inspiring".toList, "charismatic".toList],
    ["futurology".toList, "technology".toList, "programming".toList,
     "psychology".toList]⟩,
   ⟨"The Lover".toList,
    ["passionate".toList, "romantic".toList, "sensual".toList, "appreciative".toList,
     "devoted".toList],
    ["relationship_advice".toList, "dating_advice".toList, "sex".toList,
     "love".toList]⟩,
   ⟨"The Innocent".toList,
    ["optimistic".toList, "pure".toList, "trusting".toList, "hopeful".toList,
     "moral".toList],
    ["wholesomememes".toList, "UpliftingNews".toList, "aww".toList,
     "MadeMeSmile".toList]⟩]

/-- The 12 archetype names, in table order. -/
def archetypeNames : List Str := archetypeTable.map (fun a => a.name)

/-- The `basic_info` part of a persona. -/
structure BasicInfo where
  username : Str
  account_age : Str
  karma : Int
  is_gold : Bool
  is_mod : Bool
  detected_demographics : Demographics
deriving DecidableEq, Repr

/-- The `activity` part of a persona. -/
structure Activity where
  total_posts : Nat
  total_comments : Nat
  active_subreddits : List SubCount
  posting_frequency : PostingFrequency
deriving DecidableEq, Repr

/-- The assembled persona. -/
structure Persona where
  basic_info : BasicInfo
  activity : Activity
  behavior_and_habits : List Fact
  frustrations : List Fact
  motivations : Motivations
  goals_and_needs : List Fact
  personality : Personality
  archetype : Str
deriving DecidableEq, Repr

/-- Adds `k` to the named entry of a score table, preserving order (a dict value
update does not move the key). -/
def bump (l : List (Str × Nat)) (name : Str) (k : Nat) : List (Str × Nat) :=
  l.map (fun p => if p.1 = name then (p.1, p.2 + k) else p)

/-- The concatenation `desc.lower() + ' '` over behaviors, frustrations, then goals. -/
def archetypeAllText (p : Persona) : Str :=
  let t1 := p.behavior_and_habits.foldl (fun t b => t ++ pyLower b.description ++ " ".toList) []
  let t2 := p.frustrations.foldl (fun t f => t ++ pyLower f.description ++ " ".toList) t1
  p.goals_and_needs.foldl (fun t g => t ++ pyLower g.description ++ " ".toList) t2

/-- The personality-threshold bonus phase of `_determine_archetype`
(lines 797-832): each axis crossing <40 or >60 adds fixed bonuses of 1-2 to
specific archetypes. -/
def personalityBump (ps : Personality) (s1 : List (Str × Nat)) : List (Str × Nat) :=
  let s2 :=
    if ps.introvert_extrovert.score < 40 then
      bump (bump s1 "The Sage".toList 2) "The Creator".toList 1
    else if 60 < ps.introvert_extrovert.score then
      bump (bump (bump s1 "The Jester".toList 2) "The Hero".toList 1) "The Lover".toList 1
    else s1
  let s3 :=
    if ps.intuition_sensing.score < 40 then
      bump (bump s2 "The Magician".toList 2) "The Creator".toList 1
    else if 60 < ps.intuition_sensing.score then
      bump (bump s2 "The Everyman".toList 2) "The Caregiver".toList 1
    else s2
  let s4 :=
    if ps.feeling_thinking.score < 40 then
      bump (bump (bump s3 "The Lover".toList 2) "The Caregiver".toList 2) "The Innocent".toList 1
    else if 60 < ps.feeling_thinking.score then
      bump (bump s3 "The Ruler".toList 2) "The Sage".toList 2
    else s3
  if ps.perceiving_judging.score < 40 then
    bump (bump s4 "The Explorer".toList 2) "The Rebel".toList 1
  else if 60 < ps.perceiving_judging.score then
    bump (bump s4 "The Ruler".toList 2) "The Hero".toList 1
  else s4

/-- The archetype score table: +2 per affinity subreddit among the user's active
subreddits (case-insensitive), plus word-boundary trait-keyword counts over the
concatenated fact descriptions, plus the personality threshold bonuses. -/
def archetypeScores (p : Persona) : List (Str × Nat) :=
  let active := p.activity.active_subreddits.map (fun s => pyLower s.name)
  let base := archetypeTable.map (fun a =>
    (a.name, a.subreddits.foldl (fun n sub => if (pyLower sub) ∈ active then n + 2 else n) 0))
  let allText := archetypeAllText p
  let s1 := archetypeTable.foldl (fun sc a =>
    bump sc a.name (a.traits.foldl (fun n tr => n + countWB tr allText) 0)) base
  personalityBump p.personality s1

/-- `max(items, key=lambda x: x[1])[0]`: Python's `max` keeps the first element
and replaces it only on a strictly greater key, so ties go to the earliest entry. -/
def pyMaxFirst (l : List (Str × Nat)) : Str :=
  match l with
  | [] => []
  | h :: t => (t.foldl (fun best x => if best.2 < x.2 then x else best) h).1

/-- `PersonaAnalyzer._determine_archetype`. -/
def determineArchetype (p : Persona) : Str :=
  pyMaxFirst (archetypeScores p)

/-! ## `analyze` (lines 97-189) -/

/-- The text record built from a post: `title + " " + text`, source `'post'`. -/
def mkPostItem (p : Post) : TextItem :=
  ⟨(p.title.getD []) ++ " ".toList ++ (p.text.getD []), "post".toList,
   p.url.getD [], p.subreddit.getD [], p.created_utc.getD [], p.score.getD 0⟩

/-- The text record built from a comment: body, source `'comment'`. -/
def mkCommentItem (c : Comment) : TextItem :=
  ⟨c.body.getD [], "comment".toList, c.url.getD [], c.subreddit.getD [],
   c.created_utc.getD [], c.score.getD 0⟩

/-- `all_text_items`: every post then every comment, in original order, with no
filtering; each entry is a freshly constructed record. -/
def allTextItems (posts : List Post) (comments : List Comment) : List TextItem :=
  posts.map mkPostItem ++ comments.map mkCommentItem

/-- The raw `user_data` record: the three top-level collections, each optional
(`user_data.get(..., default)` semantics). -/
structure UserData where
  user_info : Option UserInfo
  posts : Option (List Post)
  comments : Option (List Comment)
deriving DecidableEq, Repr

/-- The empty `user_info` default `{}`. -/
def emptyUserInfo : UserInfo := ⟨none, none, none, none, none, none⟩

/-- The persona record as assembled by `analyze` before the final archetype
classification (the dict built at lines 117-183, with `archetype` still ''). -/
def analyzePre (env : Env) (now : DT) (u : UserData) : Persona :=
  let posts := u.posts.getD []
  let comments := u.comments.getD []
  let user_info := u.user_info.getD emptyUserInfo
  let items := allTextItems posts comments
  let p0 : Persona :=
    { basic_info :=
        { username := user_info.name.getD []
          account_age := calculateAccountAge env now user_info.created_utc
          karma := user_info.comment_karma.getD 0 + user_info.link_karma.getD 0
          is_gold := user_info.is_gold.getD false
          is_mod := user_info.is_mod.getD false
          detected_demographics := extractDemographics items }
      activity :=
        { total_posts := posts.length
          total_comments := comments.length
          active_subreddits := getActiveSubreddits posts comments
          posting_frequency := analyzePostingFrequency env posts comments }
      behavior_and_habits := extractBehaviorsAndHabits env items
      frustrations := extractFrustrations env items
      motivations := extractMotivations env items
      goals_and_needs := extractGoalsAndNeeds env items
      personality := analyzePersonality items
      archetype := [] }
  p0

/-- `PersonaAnalyzer.analyze` on a record input (total: every absent collection
or field falls back to its default): the assembled persona with the archetype
computed from it. -/
def analyzeRec (env : Env) (now : DT) (u : UserData) : Persona :=
  { basic_info := (analyzePre env now u).basic_info
    activity := (analyzePre env now u).activity
    behavior_and_habits := (analyzePre env now u).behavior_and_habits
    frustrations := (analyzePre env now u).frustrations
    motivations := (analyzePre env now u).motivations
    goals_and_needs := (analyzePre env now u).goals_and_needs
    personality := (analyzePre env now u).personality
    archetype := determineArchetype (analyzePre env now u) }

/-- The dynamic input of `analyze`: a record, or any non-record value
(on which the first `user_data.get` attribute access raises). -/
inductive Input where
  | record (u : UserData)
  | notRecord
deriving DecidableEq

/-- The only error `analyze` can raise: the `AttributeError` from calling `.get`
on a non-record input.  There is no `InvalidInput` validation in the source. -/
inductive AnalyzeErr where
  | attributeError
deriving DecidableEq, Repr

/-- `PersonaAnalyzer.analyze` with its failure behaviour made explicit. -/
def analyze (env : Env) (now : DT) : Input → Except AnalyzeErr Persona
  | .record u => .ok (analyzeRec env now u)
  | .notRecord => .error .attributeError

/-- The engine object: its only state is the immutable configuration captured at
construction (`__init__` assigns `self.*` once; no method writes to `self`). -/
structure Analyzer where
  env : Env

/-- One engine call, threading the engine state explicitly: since no method
mutates `self`, the call returns the analyzer unchanged. -/
def analyzeCall (a : Analyzer) (now : DT) (inp : Input) :
    Except AnalyzeErr Persona × Analyzer :=
  (analyze a.env now inp, a)

/-- The citation list of an optional demographic citation. -/
def optCitation : Option TextItem → List TextItem
  | some it => [it]
  | none => []

/-- Every citation reachable from a persona. -/
def personaCitations (p : Persona) : List TextItem :=
  optCitation p.basic_info.detected_demographics.age.citation ++
  optCitation p.basic_info.detected_demographics.location.citation ++
  optCitation p.basic_info.detected_demographics.occupation.citation ++
  optCitation p.basic_info.detected_demographics.status.citation ++
  p.behavior_and_habits.map (fun f => f.citation) ++
  p.frustrations.map (fun f => f.citation) ++
  p.goals_and_needs.map (fun f => f.citation) ++
  p.motivations.convenience.citations ++
  p.motivations.wellness.citations ++
  p.motivations.speed.citations ++
  p.motivations.preferences.citations ++
  p.motivations.comfort.citations ++
  p.motivations.dietary_needs.citations ++
  p.personality.introvert_extrovert.citations ++
  p.personality.intuition_sensing.citations ++
  p.personality.feeling_thinking.citations ++
  p.personality.perceiving_judging.citations

/-- The empty corpus: no posts, no comments, no user info. -/
def emptyUserData : UserData := ⟨none, some [], some []⟩

/-! ## Generic lemmas -/

theorem foldlInv {α β : Type} (P : β → Prop) (f : β → α → β) (l : List α)
    (h : ∀ st a, a ∈ l → P st → P (f st a)) (init : β) (hinit : P init) :
    P (l.foldl f init) := by
  induction l generalizing init with
  | nil => exact hinit
  | cons a t ih =>
    exact ih (fun st b hb hst => h st b (List.mem_cons_of_mem a hb) hst)
      (f init a) (h init a (List.mem_cons_self a t) hinit)

/-! ## Deduplication invariant (claim C2) -/

theorem textSimilarity_eq_of_words (env : Env) {a a' b b' : Str}
    (h1 : wordsOf env a = wordsOf env a') (h2 : wordsOf env b = wordsOf env b') :
    textSimilarity env a b = textSimilarity env a' b' := by
  simp only [textSimilarity, h1, h2]

theorem textSimilarity_comm (env : Env) (a b : Str) :
    textSimilarity env a b = textSimilarity env b a := by
  simp only [textSimilarity, Finset.inter_comm, Finset.union_comm, or_comm]

/-- The pairwise bound the dedup filter maintains, in both orders. -/
def simLE (env : Env) (f g : Fact) : Prop :=
  textSimilarity env f.description g.description ≤ mkRat 7 10 ∧
  textSimilarity env g.description f.description ≤ mkRat 7 10

/-- The mining invariant: each accepted fact's description has the word set of
some stored key, and the accepted facts are pairwise within the 0.7 bound. -/
def MineInv (env : Env) (st : MineState) : Prop :=
  (∀ f ∈ st.facts, ∃ k ∈ st.keys, wordsOf env f.description = wordsOf env k) ∧
  st.facts.Pairwise (simLE env)

theorem pushFact_inv (env : Env) (item : TextItem) (st : MineState) (cand : Str)
    (hdesc : wordsOf env (descOf cand) = wordsOf env cand) (hst : MineInv env st) :
    MineInv env (pushFact env item st cand) := by
  unfold pushFact
  split
  · exact hst
  · rename_i hrej
    simp only [List.any_eq_true, decide_eq_true_eq, not_exists, not_and, not_lt] at hrej
    obtain ⟨hkey, hpair⟩ := hst
    constructor
    · intro f hf
      rw [List.mem_append] at hf
      cases hf with
      | inl h =>
        obtain ⟨k, hk, he⟩ := hkey f h
        exact ⟨k, List.mem_cons_of_mem _ hk, he⟩
      | inr h =>
        rw [List.mem_singleton] at h
        subst h
        exact ⟨cand, List.mem_cons_self cand st.keys, hdesc⟩
    · rw [List.pairwise_append]
      refine ⟨hpair, List.pairwise_singleton _ _, ?_⟩
      intro f hf g hg
      rw [List.mem_singleton] at hg
      subst hg
      obtain ⟨k, hk, he⟩ := hkey f hf
      have h1 : textSimilarity env f.description (descOf cand) = textSimilarity env cand k := by
        rw [textSimilarity_eq_of_words env he hdesc, textSimilarity_comm]
      have h2 : textSimilarity env (descOf cand) f.description = textSimilarity env cand k := by
        rw [textSimilarity_eq_of_words env hdesc he]
      unfold simLE
      refine ⟨?_, ?_⟩
      · show textSimilarity env f.description (descOf cand) ≤ mkRat 7 10
        rw [h1]
        exact hrej k hk
      · show textSimilarity env (descOf cand) f.description ≤ mkRat 7 10
        rw [h2]
        exact hrej k hk

/-- The invariant extends through a run of candidate pushes whose candidates all
satisfy the tokenizer hypothesis. -/
theorem foldl_pushFact_inv (env : Env) (item : TextItem) (cands : List Str)
    (hdesc : ∀ c ∈ cands, wordsOf env (descOf c) = wordsOf env c)
    (st : MineState) (hst : MineInv env st) :
    MineInv env (cands.foldl (pushFact env item) st) :=
  foldlInv (MineInv env) (pushFact env item) cands
    (fun st c hc hst => pushFact_inv env item st c (hdesc c hc) hst) st hst

/-- Every deduplication candidate any of the three miners can push, over one corpus. -/
def dedupCandidates (items : List TextItem) : List Str :=
  items.bind fun it =>
    (keywordSentenceCands habitKeywords 20 (pyLower it.text) ++
     templateCands "I ".toList habitTemplates 10 (pyLower it.text)) ++
    (keywordSentenceCands frustrationKeywords 15 (pyLower it.text) ++
     templateCands [] frustrationTemplates 10 (pyLower it.text)) ++
    (keywordSentenceCands goalKeywords 15 (pyLower it.text) ++
     templateCands [] goalTemplates 10 (pyLower it.text))

theorem behaviorStep_inv (env : Env) (items : List TextItem)
    (htok : ∀ s ∈ dedupCandidates items, wordsOf env (descOf s) = wordsOf env s)
    (st : MineState) (item : TextItem) (hitem : item ∈ items) (hst : MineInv env st) :
    MineInv env (behaviorStep env st item) := by
  apply foldl_pushFact_inv
  · intro c hc
    apply htok
    unfold dedupCandidates
    rw [List.mem_bind]
    refine ⟨item, hitem, ?_⟩
    simp only [List.mem_append] at hc ⊢
    tauto
  · exact hst

theorem frustrationStep_inv (env : Env) (items : List TextItem)
    (htok : ∀ s ∈ dedupCandidates items, wordsOf env (descOf s) = wordsOf env s)
    (st : MineState) (item : TextItem) (hitem : item ∈ items) (hst : MineInv env st) :
    MineInv env (frustrationStep env st item) := by
  have hmem : ∀ c,
      c ∈ keywordSentenceCands frustrationKeywords 15 (pyLower item.text) ∨
      c ∈ templateCands [] frustrationTemplates 10 (pyLower item.text) →
      wordsOf env (descOf c) = wordsOf env c := by
    intro c hc
    apply htok
    unfold dedupCandidates
    rw [List.mem_bind]
    refine ⟨item, hitem, ?_⟩
    simp only [List.mem_append] at hc ⊢
    tauto
  unfold frustrationStep
  apply foldl_pushFact_inv
  · exact fun c hc => hmem c (Or.inr hc)
  · split
    · exact foldl_pushFact_inv env item _ (fun c hc => hmem c (Or.inl hc)) st hst
    · exact hst

theorem goalStep_inv (env : Env) (items : List TextItem)
    (htok : ∀ s ∈ dedupCandidates items, wordsOf env (descOf s) = wordsOf env s)
    (st : MineState) (item : TextItem) (hitem : item ∈ items) (hst : MineInv env st) :
    MineInv env (goalStep env st item) := by
  apply foldl_pushFact_inv
  · intro c hc
    apply htok
    unfold dedupCandidates
    rw [List.mem_bind]
    refine ⟨item, hitem, ?_⟩
    simp only [List.mem_append] at hc ⊢
    tauto
  · exact hst

theorem mineInv_init (env : Env) : MineInv env ⟨[], []⟩ :=
  ⟨fun f hf => absurd hf (List.not_mem_nil f), List.Pairwise.nil⟩

/-- Claim C2: for every input corpus and each of the three result collections
(behaviors, frustrations, goals), every pair of distinct accepted facts has
word-set Jaccard similarity at most 0.7, the word sets being tokenized,
lowercased and stopword-filtered.  The hypothesis states the property of the
external tokenizer the source relies on: stripping surrounding whitespace and
capitalizing a candidate (the stored description) does not change its word set. -/
theorem claim_C2 (env : Env) (items : List TextItem)
    (htok : ∀ s ∈ dedupCandidates items, wordsOf env (descOf s) = wordsOf env s) :
    (extractBehaviorsAndHabits env items).Pairwise (simLE env) ∧
    (extractFrustrations env items).Pairwise (simLE env) ∧
    (extractGoalsAndNeeds env items).Pairwise (simLE env) := by
  have hb : MineInv env (items.foldl (behaviorStep env) ⟨[], []⟩) :=
    foldlInv (MineInv env) (behaviorStep env) items
      (fun st it hit hst => behaviorStep_inv env items htok st it hit hst)
      ⟨[], []⟩ (mineInv_init env)
  have hf : MineInv env (items.foldl (frustrationStep env) ⟨[], []⟩) :=
    foldlInv (MineInv env) (frustrationStep env) items
      (fun st it hit hst => frustrationStep_inv env items htok st it hit hst)
      ⟨[], []⟩ (mineInv_init env)
  have hg : MineInv env (items.foldl (goalStep env) ⟨[], []⟩) :=
    foldlInv (MineInv env) (goalStep env) items
      (fun st it hit hst => goalStep_inv env items htok st it hit hst)
      ⟨[], []⟩ (mineInv_init env)
  exact ⟨List.Pairwise.sublist (List.take_sublist 10 _) hb.2,
         List.Pairwise.sublist (List.take_sublist 10 _) hf.2,
         List.Pairwise.sublist (List.take_sublist 10 _) hg.2⟩

/-- A concrete environment for witnesses: the tokenizer returns the empty set,
sentiment scores are the constant 1 and no timestamp parses. -/
def trivEnv : Env := ⟨fun _ => ∅, ∅, fun _ => 1, fun _ => 1, fun _ => none⟩

/-- A concrete one-comment corpus for the C2 witness. -/
def c2Items : List TextItem :=
  [⟨"i always drink coffee in the morning before work. i hate waiting in long lines".toList,
    "comment".toList, [], [], [], 0⟩]

theorem claim_C2_witness :
    (∀ s ∈ dedupCandidates c2Items, wordsOf trivEnv (descOf s) = wordsOf trivEnv s) ∧
    (extractBehaviorsAndHabits trivEnv c2Items).Pairwise (simLE trivEnv) ∧
    (extractFrustrations trivEnv c2Items).Pairwise (simLE trivEnv) ∧
    (extractGoalsAndNeeds trivEnv c2Items).Pairwise (simLE trivEnv) :=
  ⟨fun _ _ => rfl, claim_C2 trivEnv c2Items (fun _ _ => rfl)⟩

/-! ## Sentiment gating of frustration mining (claim C7) -/

/-- Forgets the strategy tags of a tagged mining state. -/
def projT (st : MineStateT) : MineState := ⟨st.keys, st.facts.map Prod.fst⟩

theorem pushFactT_proj (tag : Strat) (env : Env) (item : TextItem) (st : MineStateT)
    (c : Str) : projT (pushFactT tag env item st c) = pushFact env item (projT st) c := by
  by_cases h : (st.keys.any fun b => decide (mkRat 7 10 < textSimilarity env c b)) = true
  · simp [pushFactT, pushFact, projT, h]
  · simp [pushFactT, pushFact, projT, h]

theorem foldl_pushFactT_proj (tag : Strat) (env : Env) (item : TextItem)
    (cands : List Str) (st : MineStateT) :
    projT (cands.foldl (pushFactT tag env item) st) =
      cands.foldl (pushFact env item) (projT st) := by
  induction cands generalizing st with
  | nil => rfl
  | cons c t ih => rw [List.foldl_cons, List.foldl_cons, ih, pushFactT_proj]

theorem frustrationStepT_proj (env : Env) (st : MineStateT) (item : TextItem) :
    projT (frustrationStepT env st item) = frustrationStep env (projT st) item := by
  simp only [frustrationStepT, frustrationStep]
  by_cases h : mkRat 1 5 < env.negScore (pyLower item.text)
  · rw [if_pos h, if_pos h, foldl_pushFactT_proj, foldl_pushFactT_proj]
  · rw [if_neg h, if_neg h, foldl_pushFactT_proj]

theorem extractFrustrationsTagged_fst (env : Env) (items : List TextItem) :
    (extractFrustrationsTagged env items).map Prod.fst = extractFrustrations env items := by
  unfold extractFrustrationsTagged extractFrustrations
  rw [List.map_take]
  congr 1
  have key : ∀ (l : List TextItem) (s : MineStateT),
      (l.foldl (frustrationStepT env) s).facts.map Prod.fst =
        (l.foldl (frustrationStep env) (projT s)).facts := by
    intro l
    induction l with
    | nil => intro s; rfl
    | cons it t ih =>
      intro s
      rw [List.foldl_cons, List.foldl_cons, ih, frustrationStepT_proj]
  exact key items ⟨[], []⟩

/-- The provenance invariant: every strategy-(a) fact cites an item whose
negative sentiment exceeds 0.2. -/
def TagInv (env : Env) (st : MineStateT) : Prop :=
  ∀ ft ∈ st.facts, ft.2 = Strat.a → mkRat 1 5 < env.negScore (pyLower ft.1.citation.text)

theorem pushFactT_tagInv (tag : Strat) (env : Env) (item : TextItem) (st : MineStateT)
    (c : Str) (hitem : tag = Strat.a → mkRat 1 5 < env.negScore (pyLower item.text))
    (hst : TagInv env st) : TagInv env (pushFactT tag env item st c) := by
  unfold pushFactT
  split
  · exact hst
  · intro ft hft htag
    rw [List.mem_append] at hft
    cases hft with
    | inl h => exact hst ft h htag
    | inr h =>
      rw [List.mem_singleton] at h
      subst h
      exact hitem htag

theorem frustrationStepT_tagInv (env : Env) (st : MineStateT) (item : TextItem)
    (hst : TagInv env st) : TagInv env (frustrationStepT env st item) := by
  unfold frustrationStepT
  apply foldlInv (P := TagInv env)
  · intro s c _ hs
    exact pushFactT_tagInv Strat.b env item s c (fun h => by cases h) hs
  · split
    · rename_i hgate
      apply foldlInv (P := TagInv env)
      · intro s c _ hs
        exact pushFactT_tagInv Strat.a env item s c (fun _ => hgate) hs
      · exact hst
    · exact hst

/-- Claim C7: frustration mining runs the keyword-anchored strategy (a) on an
item exactly when its whole-text negative sentiment exceeds 0.2, while the
template strategy (b) runs on every item; consequently every strategy-(a) fact
(in the tag-instrumented miner, which erases to `extractFrustrations`) cites an
item whose negative sentiment exceeds 0.2. -/
theorem claim_C7 (env : Env) (items : List TextItem) :
    ((extractFrustrationsTagged env items).map Prod.fst = extractFrustrations env items) ∧
    (∀ (st : MineState) (item : TextItem),
      frustrationStep env st item =
        (if mkRat 1 5 < env.negScore (pyLower item.text) then
          (templateCands [] frustrationTemplates 10 (pyLower item.text)).foldl
            (pushFact env item)
            ((keywordSentenceCands frustrationKeywords 15 (pyLower item.text)).foldl
              (pushFact env item) st)
        else
          (templateCands [] frustrationTemplates 10 (pyLower item.text)).foldl
            (pushFact env item) st)) ∧
    (∀ ft ∈ extractFrustrationsTagged env items, ft.2 = Strat.a →
      mkRat 1 5 < env.negScore (pyLower ft.1.citation.text)) := by
  refine ⟨extractFrustrationsTagged_fst env items, ?_, ?_⟩
  · intro st item
    simp only [frustrationStep]
    by_cases h : mkRat 1 5 < env.negScore (pyLower item.text)
    · rw [if_pos h, if_pos h]
    · rw [if_neg h, if_neg h]
  · have hinv : TagInv env (items.foldl (frustrationStepT env) ⟨[], []⟩) :=
      foldlInv (TagInv env) (frustrationStepT env) items
        (fun st it _ hst => frustrationStepT_tagInv env st it hst)
        ⟨[], []⟩ (fun ft hft _ => absurd hft (List.not_mem_nil ft))
    intro ft hft htag
    exact hinv ft (List.mem_of_mem_take hft) htag

/-- A concrete one-comment corpus for the C7 witness. -/
def c7Item : TextItem :=
  ⟨"i hate waiting in long lines".toList, "comment".toList, [], [], [], 0⟩

theorem claim_C7_witness :
    ((⟨"I hate waiting in long lines".toList, c7Item⟩, Strat.a) ∈
      extractFrustrationsTagged trivEnv [c7Item]) ∧
    mkRat 1 5 < trivEnv.negScore (pyLower c7Item.text) :=
  ⟨by decide,
   (claim_C7 trivEnv [c7Item]).2.2 (⟨"I hate waiting in long lines".toList, c7Item⟩, Strat.a)
     (by decide) rfl⟩

/-! ## Citation freshness (claim C10) -/

/-- The citation invariant of a mining state. -/
def CiteInv (P : TextItem → Prop) (st : MineState) : Prop :=
  ∀ f ∈ st.facts, P f.citation

theorem pushFact_cite (env : Env) (item : TextItem) (st : MineState) (cand : Str)
    (P : TextItem → Prop) (hP : P item) (hst : CiteInv P st) :
    CiteInv P (pushFact env item st cand) := by
  unfold pushFact
  split
  · exact hst
  · intro f hf
    rw [List.mem_append] at hf
    cases hf with
    | inl h => exact hst f h
    | inr h =>
      rw [List.mem_singleton] at h
      subst h
      exact hP

theorem foldl_pushFact_cite (env : Env) (item : TextItem) (cands : List Str)
    (P : TextItem → Prop) (hP : P item) (st : MineState) (hst : CiteInv P st) :
    CiteInv P (cands.foldl (pushFact env item) st) :=
  foldlInv (CiteInv P) (pushFact env item) cands
    (fun st c _ hst => pushFact_cite env item st c P hP hst) st hst

theorem extractBehaviors_cite (env : Env) (items : List TextItem) :
    ∀ f ∈ extractBehaviorsAndHabits env items, f.citation ∈ items := by
  have key : CiteInv (· ∈ items) (items.foldl (behaviorStep env) ⟨[], []⟩) := by
    apply foldlInv (P := CiteInv (· ∈ items))
    · intro st item hitem hst
      exact foldl_pushFact_cite env item _ _ hitem st hst
    · intro f hf
      exact absurd hf (List.not_mem_nil f)
  intro f hf
  exact key f (List.mem_of_mem_take hf)

theorem extractFrustrations_cite (env : Env) (items : List TextItem) :
    ∀ f ∈ extractFrustrations env items, f.citation ∈ items := by
  have key : CiteInv (· ∈ items) (items.foldl (frustrationStep env) ⟨[], []⟩) := by
    apply foldlInv (P := CiteInv (· ∈ items))
    · intro st item hitem hst
      unfold frustrationStep
      apply foldl_pushFact_cite env item _ _ hitem
      split
      · exact foldl_pushFact_cite env item _ _ hitem st hst
      · exact hst
    · intro f hf
      exact absurd hf (List.not_mem_nil f)
  intro f hf
  exact key f (List.mem_of_mem_take hf)

theorem extractGoals_cite (env : Env) (items : List TextItem) :
    ∀ f ∈ extractGoalsAndNeeds env items, f.citation ∈ items := by
  have key : CiteInv (· ∈ items) (items.foldl (goalStep env) ⟨[], []⟩) := by
    apply foldlInv (P := CiteInv (· ∈ items))
    · intro st item hitem hst
      exact foldl_pushFact_cite env item _ _ hitem st hst
    · intro f hf
      exact absurd hf (List.not_mem_nil f)
  intro f hf
  exact key f (List.mem_of_mem_take hf)

theorem motUpdateCat_cite (env : Env) (item : TextItem) (text : Str) (kws : List Str)
    (c : MotCat) :
    ∀ t ∈ (motUpdateCat env item text kws c).citations, t ∈ c.citations ∨ t = item := by
  unfold motUpdateCat
  apply foldlInv (P := fun c' : MotCat => ∀ t ∈ c'.citations, t ∈ c.citations ∨ t = item)
  · intro c' kw _ hc'
    split
    · apply foldlInv
        (P := fun c'' : MotCat => ∀ t ∈ c''.citations, t ∈ c.citations ∨ t = item)
      · intro c'' sentence _ hc''
        split
        · intro t ht
          simp only at ht
          by_cases hmem : item ∈ c''.citations
          · rw [if_pos hmem] at ht
            exact hc'' t ht
          · rw [if_neg hmem, List.mem_append, List.mem_singleton] at ht
            cases ht with
            | inl h => exact hc'' t h
            | inr h => exact Or.inr h
        · exact hc''
      · exact hc'
    · exact hc'
  · intro t ht
    exact Or.inl ht

/-- The citation invariant over all six motivation categories. -/
def MotCite (P : TextItem → Prop) (m : Motivations) : Prop :=
  (∀ t ∈ m.convenience.citations, P t) ∧ (∀ t ∈ m.wellness.citations, P t) ∧
  (∀ t ∈ m.speed.citations, P t) ∧ (∀ t ∈ m.preferences.citations, P t) ∧
  (∀ t ∈ m.comfort.citations, P t) ∧ (∀ t ∈ m.dietary_needs.citations, P t)

theorem motCat_cite_step (env : Env) (item : TextItem) (text : Str) (kws : List Str)
    (c : MotCat) (P : TextItem → Prop) (hP : P item) (hc : ∀ t ∈ c.citations, P t) :
    ∀ t ∈ (motUpdateCat env item text kws c).citations, P t := by
  intro t ht
  cases motUpdateCat_cite env item text kws c t ht with
  | inl h => exact hc t h
  | inr h => exact h ▸ hP

theorem extractMotivationsRaw_cite (env : Env) (items : List TextItem) :
    MotCite (· ∈ items) (extractMotivationsRaw env items) := by
  unfold extractMotivationsRaw
  apply foldlInv (P := MotCite (· ∈ items))
  · intro m item hitem hm
    obtain ⟨h1, h2, h3, h4, h5, h6⟩ := hm
    exact ⟨motCat_cite_step env item _ _ _ _ hitem h1,
           motCat_cite_step env item _ _ _ _ hitem h2,
           motCat_cite_step env item _ _ _ _ hitem h3,
           motCat_cite_step env item _ _ _ _ hitem h4,
           motCat_cite_step env item _ _ _ _ hitem h5,
           motCat_cite_step env item _ _ _ _ hitem h6⟩
  · exact ⟨fun t ht => absurd ht (List.not_mem_nil t), fun t ht => absurd ht (List.not_mem_nil t),
           fun t ht => absurd ht (List.not_mem_nil t), fun t ht => absurd ht (List.not_mem_nil t),
           fun t ht => absurd ht (List.not_mem_nil t), fun t ht => absurd ht (List.not_mem_nil t)⟩

theorem extractMotivations_cite (env : Env) (items : List TextItem) :
    MotCite (· ∈ items) (extractMotivations env items) := by
  have hraw := extractMotivationsRaw_cite env items
  obtain ⟨h1, h2, h3, h4, h5, h6⟩ := hraw
  unfold extractMotivations motNormalize
  exact ⟨fun t ht => h1 t (List.mem_of_mem_take ht),
         fun t ht => h2 t (List.mem_of_mem_take ht),
         fun t ht => h3 t (List.mem_of_mem_take ht),
         fun t ht => h4 t (List.mem_of_mem_take ht),
         fun t ht => h5 t (List.mem_of_mem_take ht),
         fun t ht => h6 t (List.mem_of_mem_take ht)⟩

theorem dimCitations_cite (kws : List Str) (items : List TextItem) :
    ∀ t ∈ dimCitations kws items, t ∈ items := by
  unfold dimCitations
  apply foldlInv (P := fun cits : List TextItem => ∀ t ∈ cits, t ∈ items)
  · intro cits kw _ h
    apply foldlInv (P := fun cits' : List TextItem => ∀ t ∈ cits', t ∈ items)
    · intro cits' item hitem h'
      split
      · split
        · exact h'
        · intro t ht
          rw [List.mem_append, List.mem_singleton] at ht
          cases ht with
          | inl hh => exact h' t hh
          | inr hh => exact hh ▸ hitem
      · exact h'
    · exact h
  · intro t ht
    exact absurd ht (List.not_mem_nil t)

theorem mkDim_cite (leftKws rightKws : List Str) (items : List TextItem) :
    ∀ t ∈ (mkDim leftKws rightKws items).citations, t ∈ items := by
  intro t ht
  have : t ∈ dimCitations (leftKws ++ rightKws) items :=
    List.mem_of_mem_take (by simpa [mkDim] using ht)
  exact dimCitations_cite _ items t this

/-- The citation invariant over the demographic fields. -/
def DemoCite (P : TextItem → Prop) (d : Demographics) : Prop :=
  (∀ t, d.age.citation = some t → P t) ∧ (∀ t, d.location.citation = some t → P t) ∧
  (∀ t, d.occupation.citation = some t → P t) ∧ (∀ t, d.status.citation = some t → P t)

theorem demoStep_cite (item : TextItem) (P : TextItem → Prop) (hP : P item)
    (d : Demographics) (hd : DemoCite P d) : DemoCite P (demoStep d item) := by
  obtain ⟨ha, hl, ho, hs⟩ := hd
  have h1 : DemoCite P (demoAgeStep d item) := by
    unfold demoAgeStep
    split
    · split
      · split
        · exact ⟨fun t ht => (Option.some.inj ht) ▸ hP, hl, ho, hs⟩
        · exact ⟨ha, hl, ho, hs⟩
      · exact ⟨ha, hl, ho, hs⟩
    · exact ⟨ha, hl, ho, hs⟩
  obtain ⟨ha1, hl1, ho1, hs1⟩ := h1
  have h2 : DemoCite P (demoLocStep (demoAgeStep d item) item) := by
    unfold demoLocStep
    split
    · split
      · exact ⟨ha1, fun t ht => (Option.some.inj ht) ▸ hP, ho1, hs1⟩
      · exact ⟨ha1, hl1, ho1, hs1⟩
    · exact ⟨ha1, hl1, ho1, hs1⟩
  obtain ⟨ha2, hl2, ho2, hs2⟩ := h2
  have h3 : DemoCite P (demoOccStep (demoLocStep (demoAgeStep d item) item) item) := by
    unfold demoOccStep
    split
    · split
      · split
        · exact ⟨ha2, hl2, ho2, hs2⟩
        · exact ⟨ha2, hl2, fun t ht => (Option.some.inj ht) ▸ hP, hs2⟩
      · exact ⟨ha2, hl2, ho2, hs2⟩
    · exact ⟨ha2, hl2, ho2, hs2⟩
  unfold demoStep demoStatusStep
  apply foldlInv (P := DemoCite P)
  · intro d' p _ hd'
    apply foldlInv (P := DemoCite P)
    · intro d'' ind _ hd''
      obtain ⟨ha', hl', ho', hs'⟩ := hd''
      split
      · exact ⟨ha', hl', ho', fun t ht => (Option.some.inj ht) ▸ hP⟩
      · exact ⟨ha', hl', ho', hs'⟩
    · exact hd'
  · exact h3

theorem extractDemographics_cite (items : List TextItem) :
    DemoCite (· ∈ items) (extractDemographics items) := by
  unfold extractDemographics
  apply foldlInv (P := DemoCite (· ∈ items))
  · intro d item hitem hd
    exact demoStep_cite item _ hitem d hd
  · exact ⟨fun t ht => Option.noConfusion ht, fun t ht => Option.noConfusion ht,
           fun t ht => Option.noConfusion ht, fun t ht => Option.noConfusion ht⟩

/-- Claim C10: `analyze` builds all citations from the freshly constructed
`TextItem` records of the normalization pass, never from the raw post/comment
records (which, the engine being a pure function of its input in this model,
are left untouched). -/
theorem claim_C10 (env : Env) (now : DT) (u : UserData) :
    ∀ c ∈ personaCitations (analyzeRec env now u),
      c ∈ allTextItems (u.posts.getD []) (u.comments.getD []) := by
  intro c hc
  have hdemo := extractDemographics_cite (allTextItems (u.posts.getD []) (u.comments.getD []))
  have hmot := extractMotivations_cite env (allTextItems (u.posts.getD []) (u.comments.getD []))
  simp only [personaCitations, analyzeRec, analyzePre, List.append_assoc, List.mem_append] at hc
  rcases hc with h | h | h | h | h | h | h | h | h | h | h | h | h | h | h | h | h
  · rcases p : (extractDemographics _).age.citation with _ | t <;> rw [p] at h
    · cases h
    · simp only [optCitation, List.mem_singleton] at h
      exact h ▸ hdemo.1 t p
  · rcases p : (extractDemographics _).location.citation with _ | t <;> rw [p] at h
    · cases h
    · simp only [optCitation, List.mem_singleton] at h
      exact h ▸ hdemo.2.1 t p
  · rcases p : (extractDemographics _).occupation.citation with _ | t <;> rw [p] at h
    · cases h
    · simp only [optCitation, List.mem_singleton] at h
      exact h ▸ hdemo.2.2.1 t p
  · rcases p : (extractDemographics _).status.citation with _ | t <;> rw [p] at h
    · cases h
    · simp only [optCitation, List.mem_singleton] at h
      exact h ▸ hdemo.2.2.2 t p
  · obtain ⟨f, hf, hfc⟩ := List.mem_map.mp h
    exact hfc ▸ extractBehaviors_cite env _ f hf
  · obtain ⟨f, hf, hfc⟩ := List.mem_map.mp h
    exact hfc ▸ extractFrustrations_cite env _ f hf
  · obtain ⟨f, hf, hfc⟩ := List.mem_map.mp h
    exact hfc ▸ extractGoals_cite env _ f hf
  · exact hmot.1 c h
  · exact hmot.2.1 c h
  · exact hmot.2.2.1 c h
  · exact hmot.2.2.2.1 c h
  · exact hmot.2.2.2.2.1 c h
  · exact hmot.2.2.2.2.2 c h
  · exact mkDim_cite _ _ _ c h
  · exact mkDim_cite _ _ _ c h
  · exact mkDim_cite _ _ _ c h
  · exact mkDim_cite _ _ _ c h

/-- A concrete reference time for witnesses. -/
def nowTriv : DT := ⟨0, 0⟩

/-- A concrete comment for the C10 witness. -/
def c10Comment : Comment := ⟨some (aposJoin ["I", "m 25 years old"]), none, none, none, none⟩

/-- Concrete user data for the C10 witness. -/
def c10Data : UserData := ⟨none, some [], some [c10Comment]⟩

theorem claim_C10_witness :
    (mkCommentItem c10Comment ∈ personaCitations (analyzeRec trivEnv nowTriv c10Data)) ∧
    mkCommentItem c10Comment ∈ allTextItems (c10Data.posts.getD []) (c10Data.comments.getD []) :=
  ⟨by decide, claim_C10 trivEnv nowTriv c10Data (mkCommentItem c10Comment) (by decide)⟩

/-! ## Age extraction (claim C6) -/

/-- The age-qualification step of one item: the first regex match of the item,
kept only when it lies in 13..90. -/
def ageQualify (it : TextItem) : Option (Nat × TextItem) :=
  match ageSearch it.text with
  | some a => if 13 ≤ a ∧ a ≤ 90 then some (a, it) else none
  | none => none

/-- The first item (in corpus order) whose first age-pattern match qualifies. -/
def firstAgeHit (items : List TextItem) : Option (Nat × TextItem) :=
  items.findSome? ageQualify

theorem demoStatusStep_age (d : Demographics) (it : TextItem) :
    (demoStatusStep d it).age = d.age := by
  unfold demoStatusStep
  apply foldlInv (P := fun x : Demographics => x.age = d.age)
  · intro x p _ hx
    apply foldlInv (P := fun y : Demographics => y.age = d.age)
    · intro y ind _ hy
      split
      · exact hy
      · exact hy
    · exact hx
  · rfl

theorem demoOccStep_age (d : Demographics) (it : TextItem) :
    (demoOccStep d it).age = d.age := by
  unfold demoOccStep
  split
  · split
    · split
      · rfl
      · rfl
    · rfl
  · rfl

theorem demoLocStep_age (d : Demographics) (it : TextItem) :
    (demoLocStep d it).age = d.age := by
  unfold demoLocStep
  split
  · split
    · rfl
    · rfl
  · rfl

theorem demoStep_age (d : Demographics) (it : TextItem) :
    (demoStep d it).age = (demoAgeStep d it).age := by
  unfold demoStep
  rw [demoStatusStep_age, demoOccStep_age, demoLocStep_age]

theorem foldl_demoStep_age_set (items : List TextItem) :
    ∀ d : Demographics, truthyIntOpt d.age.value = true →
      (items.foldl demoStep d).age = d.age := by
  induction items with
  | nil => intro d _; rfl
  | cons it rest ih =>
    intro d hd
    rw [List.foldl_cons]
    have hstep : (demoStep d it).age = d.age := by
      rw [demoStep_age]
      unfold demoAgeStep
      split
      · rw [if_neg (by simp [hd])]
      · rfl
    rw [ih (demoStep d it) (by rw [hstep]; exact hd), hstep]

theorem foldl_demoStep_age_unset (items : List TextItem) :
    ∀ d : Demographics, d.age = ⟨none, 0, none⟩ →
      (items.foldl demoStep d).age =
        (match firstAgeHit items with
         | some (a, it) => ⟨some (a : Int), mkRat 9 10, some it⟩
         | none => ⟨none, 0, none⟩) := by
  induction items with
  | nil =>
    intro d hd
    simpa [firstAgeHit, List.findSome?] using hd
  | cons it rest ih =>
    intro d hd
    rw [List.foldl_cons]
    have hins : firstAgeHit (it :: rest) =
        match ageQualify it with
        | some x => some x
        | none => firstAgeHit rest := by
      simp [firstAgeHit, List.findSome?_cons]
      rcases ageQualify it with _ | x <;> simp
    have htr : truthyIntOpt d.age.value = false := by rw [hd]; rfl
    rcases h : ageSearch it.text with _ | a
    · have hq : ageQualify it = none := by simp [ageQualify, h]
      have hstep : (demoStep d it).age = d.age := by
        rw [demoStep_age]; simp [demoAgeStep, h]
      rw [ih (demoStep d it) (by rw [hstep]; exact hd), hins, hq]
    · by_cases hr : 13 ≤ a ∧ a ≤ 90
      · have hq : ageQualify it = some (a, it) := by simp [ageQualify, h, hr]
        have hstep : (demoStep d it).age = ⟨some (a : Int), mkRat 9 10, some it⟩ := by
          rw [demoStep_age]; simp [demoAgeStep, h, htr, hr]
        have hset : truthyIntOpt (demoStep d it).age.value = true := by
          rw [hstep]
          simp only [truthyIntOpt]
          have hne : (a : Int) ≠ 0 := by
            have : 13 ≤ a := hr.1
            omega
          simp [hne]
        rw [foldl_demoStep_age_set rest _ hset, hstep, hins, hq]
      · have hq : ageQualify it = none := by simp [ageQualify, h, hr]
        have hstep : (demoStep d it).age = d.age := by
          rw [demoStep_age]; simp [demoAgeStep, h, htr, hr]
        rw [ih (demoStep d it) (by rw [hstep]; exact hd), hins, hq]

theorem ageQualify_range (it it' : TextItem) (a : Nat)
    (h : ageQualify it = some (a, it')) : 13 ≤ a ∧ a ≤ 90 := by
  unfold ageQualify at h
  rcases hs : ageSearch it.text with _ | b <;> simp only [hs] at h
  · cases h
  · by_cases hr : 13 ≤ b ∧ b ≤ 90
    · rw [if_pos hr] at h
      have hb : b = a := by
        have := congrArg Prod.fst (Option.some.inj h)
        simpa using this
      exact hb ▸ hr
    · rw [if_neg hr] at h
      cases h

theorem firstAgeHit_range (items : List TextItem) (a : Nat) (it : TextItem)
    (h : firstAgeHit items = some (a, it)) : 13 ≤ a ∧ a ≤ 90 := by
  induction items with
  | nil => simp [firstAgeHit, List.findSome?] at h
  | cons x rest ih =>
    rw [firstAgeHit, List.findSome?_cons] at h
    rcases hq : ageQualify x with _ | y
    · simp only [hq] at h
      exact ih (by simpa [firstAgeHit] using h)
    · simp only [hq] at h
      have hy : y = (a, it) := Option.some.inj h
      exact ageQualify_range x it a (by rw [hq, hy])

/-- Claim C6 (amended): the age extractor's result is exactly determined by the
first item whose *first* regex match lies in 13..90 — a rejected first match
skips the rest of that item; fixed confidence 0.9; the field, once set, is
never overwritten; 12 and 91 are rejected, 13 and 90 accepted. -/
theorem claim_C6_amended (items : List TextItem) :
    ((extractDemographics items).age =
      (match firstAgeHit items with
       | some (a, it) => ⟨some (a : Int), mkRat 9 10, some it⟩
       | none => ⟨none, 0, none⟩)) ∧
    (∀ a : Int, (extractDemographics items).age.value = some a →
      13 ≤ a ∧ a ≤ 90 ∧ (extractDemographics items).age.confidence = mkRat 9 10) ∧
    ((extractDemographics [⟨"I am 12 years old".toList, [], [], [], [], 0⟩]).age.value
      = none) ∧
    ((extractDemographics [⟨"I am 91 years old".toList, [], [], [], [], 0⟩]).age.value
      = none) ∧
    ((extractDemographics [⟨"I am 13 years old".toList, [], [], [], [], 0⟩]).age.value
      = some 13) ∧
    ((extractDemographics [⟨"I am 90 years old".toList, [], [], [], [], 0⟩]).age.value
      = some 90) := by
  have hchar : (extractDemographics items).age =
      (match firstAgeHit items with
       | some (a, it) => ⟨some (a : Int), mkRat 9 10, some it⟩
       | none => ⟨none, 0, none⟩) :=
    foldl_demoStep_age_unset items demoInit rfl
  refine ⟨hchar, ?_, by decide, by decide, by decide, by decide⟩
  intro a ha
  rcases hh : firstAgeHit items with _ | x
  · simp only [hh] at hchar
    rw [hchar] at ha
    cases ha
  · obtain ⟨n, it⟩ := x
    simp only [hh] at hchar
    rw [hchar] at ha
    have hna : (n : Int) = a := Option.some.inj ha
    have hr := firstAgeHit_range items n it hh
    refine ⟨?_, ?_, by rw [hchar]⟩
    · rw [← hna]; exact_mod_cast hr.1
    · rw [← hna]; exact_mod_cast hr.2

/-- The C6 counterexample corpus: the item's first age match (12) is rejected,
and the qualifying second match (25) is never considered by `search`. -/
def c6Item : TextItem :=
  ⟨aposJoin ["I", "m 12 years old. I", "m 25 years old."], "comment".toList, [], [], [], 0⟩

theorem claim_C6_counterexample :
    ageFindAll c6Item.text = [12, 25] ∧
    (13 ≤ 25 ∧ 25 ≤ 90) ∧
    (extractDemographics [c6Item]).age.value = none := by
  refine ⟨by decide, by decide, by decide⟩

/-- The C6 witness corpus. -/
def c6WItems : List TextItem :=
  [⟨aposJoin ["I", "m 25 years old"], "comment".toList, [], [], [], 0⟩]

theorem claim_C6_witness :
    ((extractDemographics c6WItems).age.value = some 25) ∧
    (13 ≤ (25 : Int) ∧ (25 : Int) ≤ 90 ∧
      (extractDemographics c6WItems).age.confidence = mkRat 9 10) :=
  ⟨by decide, (claim_C6_amended c6WItems).2.1 25 (by decide)⟩

/-! ## Motivation normalization (claim C5) -/

/-- The six category scores, indexed in table order. -/
def motNth (m : Motivations) : Fin 6 → Nat
  | ⟨0, _⟩ => m.convenience.score
  | ⟨1, _⟩ => m.wellness.score
  | ⟨2, _⟩ => m.speed.score
  | ⟨3, _⟩ => m.preferences.score
  | ⟨4, _⟩ => m.comfort.score
  | ⟨5, _⟩ => m.dietary_needs.score

theorem motMax_pos (m : Motivations) : 0 < motMax m := by
  unfold motMax
  split
  · rename_i h
    simp only [List.any_eq_true, decide_eq_true_eq] at h
    obtain ⟨s, hs, hpos⟩ := h
    simp only [motRawList, List.mem_cons, List.not_mem_nil, or_false] at hs
    simp only [motRawList, List.foldl]
    rcases hs with h | h | h | h | h | h <;> subst h <;> omega
  · exact Nat.one_pos

theorem motNormalize_spec (maxR : Nat) (hmaxpos : 0 < maxR) (c : MotCat) :
    (motNormalize maxR c).score = min 10 ((10 * c.score) / maxR) ∧
    (motNormalize maxR c).score ≤ 10 ∧
    (c.score = maxR → (motNormalize maxR c).score = 10) := by
  have hs : (motNormalize maxR c).score = min 10 ((10 * c.score) / maxR) := by
    simp [motNormalize, hmaxpos]
  refine ⟨hs, ?_, ?_⟩
  · rw [hs]
    exact Nat.min_le_left _ _
  · intro h
    have hd : 10 * maxR / maxR = 10 := Nat.mul_div_cancel 10 hmaxpos
    rw [hs, h, hd, min_self]

theorem motMax_eq_of_max (m : Motivations) (s : Nat) (hs : s ∈ motRawList m)
    (hpos : 0 < s) (hall : ∀ t ∈ motRawList m, t ≤ s) : motMax m = s := by
  unfold motMax
  rw [if_pos]
  · have h0 : m.convenience.score ≤ s := hall _ (by simp [motRawList])
    have h1 : m.wellness.score ≤ s := hall _ (by simp [motRawList])
    have h2 : m.speed.score ≤ s := hall _ (by simp [motRawList])
    have h3 : m.preferences.score ≤ s := hall _ (by simp [motRawList])
    have h4 : m.comfort.score ≤ s := hall _ (by simp [motRawList])
    have h5 : m.dietary_needs.score ≤ s := hall _ (by simp [motRawList])
    simp only [motRawList, List.mem_cons, List.not_mem_nil, or_false] at hs
    simp only [motRawList, List.foldl]
    rcases hs with h | h | h | h | h | h <;> omega
  · rw [List.any_eq_true]
    exact ⟨s, hs, by simpa using hpos⟩

/-- Claim C5: each motivation score is `min 10 (10·raw / max-raw)` with divisor 1
when all counters are zero; all scores lie in 0..10; with at least one nonzero
counter, a most-evidenced category scores exactly 10. -/
theorem claim_C5 (env : Env) (items : List TextItem) :
    (∀ i : Fin 6, motNth (extractMotivations env items) i =
      min 10 ((10 * motNth (extractMotivationsRaw env items) i) /
        motMax (extractMotivationsRaw env items))) ∧
    (∀ i : Fin 6, motNth (extractMotivations env items) i ≤ 10) ∧
    (∀ i : Fin 6, 0 < motNth (extractMotivationsRaw env items) i →
      (∀ j : Fin 6, motNth (extractMotivationsRaw env items) j ≤
        motNth (extractMotivationsRaw env items) i) →
      motNth (extractMotivations env items) i = 10) := by
  have hpos := motMax_pos (extractMotivationsRaw env items)
  refine ⟨?_, ?_, ?_⟩
  · intro i
    fin_cases i <;> exact (motNormalize_spec _ hpos _).1
  · intro i
    fin_cases i <;> exact (motNormalize_spec _ hpos _).2.1
  · intro i hp hall
    have hall' : ∀ t ∈ motRawList (extractMotivationsRaw env items),
        t ≤ motNth (extractMotivationsRaw env items) i := by
      intro t ht
      simp only [motRawList, List.mem_cons, List.not_mem_nil, or_false] at ht
      rcases ht with h | h | h | h | h | h
      · exact h ▸ hall ⟨0, by omega⟩
      · exact h ▸ hall ⟨1, by omega⟩
      · exact h ▸ hall ⟨2, by omega⟩
      · exact h ▸ hall ⟨3, by omega⟩
      · exact h ▸ hall ⟨4, by omega⟩
      · exact h ▸ hall ⟨5, by omega⟩
    have hmem : motNth (extractMotivationsRaw env items) i ∈
        motRawList (extractMotivationsRaw env items) := by
      fin_cases i <;> simp [motNth, motRawList]
    have hmax := motMax_eq_of_max (extractMotivationsRaw env items) _ hmem hp hall'
    fin_cases i <;> exact (motNormalize_spec _ hpos _).2.2 hmax.symm

/-- The C5 witness corpus: one wellness keyword. -/
def c5Items : List TextItem := [⟨"healthy".toList, "comment".toList, [], [], [], 0⟩]

theorem claim_C5_witness :
    (0 < motNth (extractMotivationsRaw trivEnv c5Items) ⟨1, by omega⟩) ∧
    (∀ j : Fin 6, motNth (extractMotivationsRaw trivEnv c5Items) j ≤
      motNth (extractMotivationsRaw trivEnv c5Items) ⟨1, by omega⟩) ∧
    motNth (extractMotivations trivEnv c5Items) ⟨1, by omega⟩ = 10 :=
  ⟨by decide, by decide,
   (claim_C5 trivEnv c5Items).2.2 ⟨1, by omega⟩ (by decide) (by decide)⟩

/-! ## Personality scoring (claim C3) -/

/-- The specification one personality axis satisfies: the stored score is
`int((right_count / total) * 100)` with the division and the multiplication
evaluated in binary64 (`pyPercent`, the exact model of the correctly rounded
float operations) whenever there is keyword evidence, and 50 otherwise. -/
def dimSpecHolds (leftKws rightKws : List Str) (items : List TextItem)
    (d : PersonalityDim) : Prop :=
  (d.score =
    if 0 < dimCount leftKws (personalityAllText items) +
         dimCount rightKws (personalityAllText items)
    then pyPercent (dimCount rightKws (personalityAllText items))
         (dimCount leftKws (personalityAllText items) +
          dimCount rightKws (personalityAllText items))
    else 50) ∧
  (0 < dimCount leftKws (personalityAllText items) +
       dimCount rightKws (personalityAllText items) →
    d.score = pyPercent (dimCount rightKws (personalityAllText items))
      (dimCount leftKws (personalityAllText items) +
       dimCount rightKws (personalityAllText items))) ∧
  (dimCount leftKws (personalityAllText items) +
     dimCount rightKws (personalityAllText items) = 0 → d.score = 50)

theorem mkDim_spec (l r : List Str) (items : List TextItem) :
    dimSpecHolds l r items (mkDim l r items) := by
  refine ⟨rfl, ?_, ?_⟩
  · intro hpos
    simp [mkDim, hpos]
  · intro hz
    simp [mkDim, hz]

/-- Claim C3 (amended): each axis score is `int((right / (left + right)) * 100)`
computed in binary64 over whole-corpus word-boundary counts — the code
truncates the float product, it does not round (and at count ratio `29/100`
the float product even truncates below the exact floor) — defaulting to 50
when there is no keyword evidence. -/
theorem claim_C3_amended (items : List TextItem) :
    dimSpecHolds introvertKeywords extrovertKeywords items
      (analyzePersonality items).introvert_extrovert ∧
    dimSpecHolds intuitionKeywords sensingKeywords items
      (analyzePersonality items).intuition_sensing ∧
    dimSpecHolds feelingKeywords thinkingKeywords items
      (analyzePersonality items).feeling_thinking ∧
    dimSpecHolds perceivingKeywords judgingKeywords items
      (analyzePersonality items).perceiving_judging :=
  ⟨mkDim_spec _ _ _, mkDim_spec _ _ _, mkDim_spec _ _ _, mkDim_spec _ _ _⟩

/-- The C3 counterexample corpus: one introvert keyword, two extrovert keywords. -/
def c3Items : List TextItem := [⟨"quiet social party".toList, "comment".toList, [], [], [], 0⟩]

/-- A second corpus with 71 introvert and 29 extrovert keyword occurrences:
here binary64 stores `int(28.999999999999996) = 28`, below even the exact
floor 29. -/
def c3bItems : List TextItem :=
  [⟨(List.replicate 71 "quiet ".toList).join ++ (List.replicate 29 "social ".toList).join,
    "comment".toList, [], [], [], 0⟩]

set_option maxHeartbeats 4000000 in
set_option maxRecDepth 16000 in
theorem claim_C3_counterexample :
    (dimCount introvertKeywords (personalityAllText c3Items) = 1 ∧
     dimCount extrovertKeywords (personalityAllText c3Items) = 2 ∧
     (analyzePersonality c3Items).introvert_extrovert.score = 66 ∧
     round ((100 * (dimCount extrovertKeywords (personalityAllText c3Items) : ℚ)) /
       ((dimCount introvertKeywords (personalityAllText c3Items) +
         dimCount extrovertKeywords (personalityAllText c3Items) : ℕ) : ℚ)) = 67) ∧
    (dimCount introvertKeywords (personalityAllText c3bItems) = 71 ∧
     dimCount extrovertKeywords (personalityAllText c3bItems) = 29 ∧
     (analyzePersonality c3bItems).introvert_extrovert.score = 28 ∧
     round ((100 * (dimCount extrovertKeywords (personalityAllText c3bItems) : ℚ)) /
       ((dimCount introvertKeywords (personalityAllText c3bItems) +
         dimCount extrovertKeywords (personalityAllText c3bItems) : ℕ) : ℚ)) = 29 ∧
     ⌊(100 * (dimCount extrovertKeywords (personalityAllText c3bItems) : ℚ)) /
       ((dimCount introvertKeywords (personalityAllText c3bItems) +
         dimCount extrovertKeywords (personalityAllText c3bItems) : ℕ) : ℚ)⌋ = 29) := by
  have h1 : dimCount introvertKeywords (personalityAllText c3Items) = 1 := by decide
  have h2 : dimCount extrovertKeywords (personalityAllText c3Items) = 2 := by decide
  have h3 : dimCount introvertKeywords (personalityAllText c3bItems) = 71 := by decide
  have h4 : dimCount extrovertKeywords (personalityAllText c3bItems) = 29 := by decide
  refine ⟨⟨h1, h2, by decide, ?_⟩, h3, h4, by decide, ?_, ?_⟩
  · rw [h1, h2]
    norm_num [round_eq]
  · rw [h3, h4]
    norm_num [round_eq]
  · rw [h3, h4]
    norm_num

theorem claim_C3_witness :
    (0 < dimCount introvertKeywords (personalityAllText c3Items) +
      dimCount extrovertKeywords (personalityAllText c3Items)) ∧
    (analyzePersonality c3Items).introvert_extrovert.score =
      pyPercent (dimCount extrovertKeywords (personalityAllText c3Items))
        (dimCount introvertKeywords (personalityAllText c3Items) +
         dimCount extrovertKeywords (personalityAllText c3Items)) :=
  ⟨by decide, (claim_C3_amended c3Items).1.2.1 (by decide)⟩

/-! ## Archetype classification (claim C1) -/

theorem foldlPick_split (t : List (Str × Nat)) :
    ∀ h : Str × Nat, ∃ pre post,
      h :: t = pre ++ (t.foldl (fun best x => if best.2 < x.2 then x else best) h) :: post ∧
      (∀ q ∈ pre, q.2 < (t.foldl (fun best x => if best.2 < x.2 then x else best) h).2) ∧
      (∀ q ∈ post, q.2 ≤ (t.foldl (fun best x => if best.2 < x.2 then x else best) h).2) := by
  induction t with
  | nil =>
    intro h
    exact ⟨[], [], rfl, by simp, by simp⟩
  | cons x t' ih =>
    intro h
    rw [List.foldl_cons]
    by_cases hx : h.2 < x.2
    · obtain ⟨pre', post', heq, hpre', hpost'⟩ := ih (if h.2 < x.2 then x else h)
      rw [if_pos hx] at heq hpre' hpost'
      rw [if_pos hx]
      refine ⟨h :: pre', post', ?_, ?_, hpost'⟩
      · rw [List.cons_append, ← heq]
      · intro q hq
        rcases List.mem_cons.mp hq with hq | hq
        · subst hq
          rcases pre' with _ | ⟨p0, pre''⟩
          · have hpick : x = t'.foldl (fun best x => if best.2 < x.2 then x else best) x := by
              have := heq
              rw [List.nil_append] at this
              exact (List.cons.injEq .. ▸ this).1
            rw [← hpick]
            exact hx
          · have hx0 : x = p0 := by
              rw [List.cons_append] at heq
              exact (List.cons.injEq .. ▸ heq).1
            have := hpre' p0 (List.mem_cons_self p0 pre'')
            calc q.2 < x.2 := hx
              _ = p0.2 := by rw [hx0]
              _ < _ := this
        · exact hpre' q hq
    · obtain ⟨pre', post', heq, hpre', hpost'⟩ := ih (if h.2 < x.2 then x else h)
      rw [if_neg hx] at heq hpre' hpost'
      rw [if_neg hx]
      rcases pre' with _ | ⟨p0, pre''⟩
      · rw [List.nil_append] at heq
        have hpick : h = t'.foldl (fun best x => if best.2 < x.2 then x else best) h :=
          (List.cons.injEq .. ▸ heq).1
        have hpost'' : t' = post' := (List.cons.injEq .. ▸ heq).2
        refine ⟨[], x :: t', ?_, by simp, ?_⟩
        · rw [List.nil_append, ← hpick]
        · intro q hq
          rcases List.mem_cons.mp hq with hq | hq
          · subst hq
            rw [← hpick]
            exact Nat.le_of_not_lt hx
          · exact hpost' q (hpost'' ▸ hq)
      · rw [List.cons_append] at heq
        have hh0 : h = p0 := (List.cons.injEq .. ▸ heq).1
        have ht' : t' = pre'' ++ _ :: post' := (List.cons.injEq .. ▸ heq).2
        refine ⟨h :: x :: pre'', post', ?_, ?_, hpost'⟩
        · rw [List.cons_append, List.cons_append, ← ht']
        · intro q hq
          have hp0 := hpre' p0 (List.mem_cons_self p0 pre'')
          have hh2 : h.2 = p0.2 := by rw [hh0]
          rcases List.mem_cons.mp hq with hq | hq
          · have hq2 : q.2 = p0.2 := by rw [hq, hh0]
            rw [hq2]
            exact hp0
          rcases List.mem_cons.mp hq with hq | hq
          · have hq2 : q.2 = x.2 := by rw [hq]
            rw [hq2]
            calc x.2 ≤ h.2 := Nat.le_of_not_lt hx
              _ = p0.2 := hh2
              _ < _ := hp0
          · exact hpre' q (List.mem_cons_of_mem p0 hq)

theorem bump_map_fst (l : List (Str × Nat)) (name : Str) (k : Nat) :
    (bump l name k).map Prod.fst = l.map Prod.fst := by
  induction l with
  | nil => rfl
  | cons p t ih =>
    simp only [bump, List.map_cons] at ih ⊢
    by_cases h : p.1 = name
    · rw [if_pos h]
      exact congrArg _ ih
    · rw [if_neg h]
      exact congrArg _ ih

theorem foldl_bump_map_fst {α : Type} (l : List α) (nm : α → Str) (k : α → Nat)
    (base : List (Str × Nat)) :
    ((l.foldl (fun sc a => bump sc (nm a) (k a)) base).map Prod.fst) =
      base.map Prod.fst := by
  apply foldlInv (P := fun sc : List (Str × Nat) => sc.map Prod.fst = base.map Prod.fst)
  · intro sc a _ h
    rw [bump_map_fst, h]
  · rfl

theorem personalityBump_map_fst (ps : Personality) (sc : List (Str × Nat)) :
    (personalityBump ps sc).map Prod.fst = sc.map Prod.fst := by
  unfold personalityBump
  repeat' split
  all_goals simp only [bump_map_fst]

theorem archetypeScores_map_fst (p : Persona) :
    (archetypeScores p).map Prod.fst = archetypeNames := by
  unfold archetypeScores
  rw [personalityBump_map_fst, foldl_bump_map_fst, List.map_map]
  rfl

theorem determineArchetype_of_parts (p : Persona)
    (h1 : p.activity.active_subreddits = [])
    (h2 : p.behavior_and_habits = [])
    (h3 : p.frustrations = [])
    (h4 : p.goals_and_needs = [])
    (h5 : p.personality = analyzePersonality []) :
    determineArchetype p = "The Creator".toList := by
  unfold determineArchetype archetypeScores archetypeAllText
  rw [h1, h2, h3, h4, h5]
  decide

set_option maxHeartbeats 2000000 in
/-- Claim C1: the classifier returns an archetype of the fixed 12-name table
whose total score is maximal, every earlier table entry scoring strictly less
(Python `max` keeps the first maximal entry); on the empty corpus every score
is 0 and the result is the table's first entry, "The Creator". -/
theorem claim_C1 (p : Persona) (env : Env) (now : DT) :
    determineArchetype p ∈ archetypeNames ∧
    (∃ pre post x, archetypeScores p = pre ++ x :: post ∧
      determineArchetype p = x.1 ∧
      (∀ q ∈ pre, q.2 < x.2) ∧ (∀ q ∈ post, q.2 ≤ x.2)) ∧
    (analyzeRec env now emptyUserData).archetype = "The Creator".toList := by
  have hne : archetypeScores p ≠ [] := by
    intro h
    have hmf := archetypeScores_map_fst p
    rw [h] at hmf
    exact absurd hmf (by decide)
  obtain ⟨h0, t, hht⟩ := List.exists_cons_of_ne_nil hne
  obtain ⟨pre, post, heq, hpre, hpost⟩ := foldlPick_split t h0
  have hda : determineArchetype p =
      (t.foldl (fun best x => if best.2 < x.2 then x else best) h0).1 := by
    unfold determineArchetype pyMaxFirst
    rw [hht]
  refine ⟨?_, ⟨pre, post, _, hht.trans heq, hda, hpre, hpost⟩, ?_⟩
  · have hmem : (t.foldl (fun best x => if best.2 < x.2 then x else best) h0) ∈
        archetypeScores p := by
      rw [hht, heq]
      exact List.mem_append_right pre (List.mem_cons_self _ post)
    rw [hda, ← archetypeScores_map_fst p]
    exact List.mem_map_of_mem Prod.fst hmem
  · simp only [analyzeRec]
    exact determineArchetype_of_parts _ rfl rfl rfl rfl rfl

theorem claim_C1_witness :
    (analyzeRec trivEnv nowTriv emptyUserData).archetype = "The Creator".toList :=
  (claim_C1 (analyzeRec trivEnv nowTriv emptyUserData) trivEnv nowTriv).2.2

/-! ## Activity tier (claim C8) -/

/-- The number of items with parseable (and truthy) timestamps. -/
def parseableCount (env : Env) (posts : List Post) (comments : List Comment) : Nat :=
  (tsOfPosts env posts ++ tsOfComments env comments).length

/-- Claim C8 (amended): the activity tier is `'Unknown'` when no item has a
parseable timestamp, `'Low'` below 10, `'Moderate'` below 50, `'High'`
otherwise; the normalizer retains every post and comment regardless of
timestamp parseability, so the other components consume the full corpus. -/
theorem claim_C8_amended (env : Env) (posts : List Post) (comments : List Comment) :
    ((analyzePostingFrequency env posts comments).activity_level =
      (if parseableCount env posts comments = 0 then "Unknown".toList
       else if parseableCount env posts comments < 10 then "Low".toList
       else if parseableCount env posts comments < 50 then "Moderate".toList
       else "High".toList)) ∧
    (∀ (ps : List Post) (cs : List Comment),
      (allTextItems ps cs).length = ps.length + cs.length) := by
  constructor
  · by_cases h : (tsOfPosts env posts ++ tsOfComments env comments) = []
    · have hlen : parseableCount env posts comments = 0 := by
        unfold parseableCount
        rw [h]
        rfl
      simp [analyzePostingFrequency, h, hlen]
    · have hlen : parseableCount env posts comments ≠ 0 := by
        unfold parseableCount
        intro hc
        exact h (List.length_eq_zero.mp hc)
      have hne : ((tsOfPosts env posts ++ tsOfComments env comments).isEmpty) = false := by
        rw [List.isEmpty_eq_false_iff_exists_mem]
        rcases List.exists_cons_of_ne_nil h with ⟨x, t, hxt⟩
        exact ⟨x, hxt ▸ List.mem_cons_self x t⟩
      have hand : ¬ (tsOfPosts env posts = [] ∧ tsOfComments env comments = []) := by
        rw [← List.append_eq_nil]
        exact h
      simp [analyzePostingFrequency, parseableCount, hne, hlen]
      rw [if_neg hand]
  · intro ps cs
    simp [allTextItems]

theorem claim_C8_counterexample :
    (analyzePostingFrequency trivEnv [] []).activity_level = "Unknown".toList ∧
    "Unknown".toList ≠ "Low".toList :=
  ⟨by decide, by decide⟩

/-! ## Failure behaviour of `analyze` (claim C4) -/

/-- Claim C4 (amended): `analyze` performs no `InvalidInput` validation: every
record input — including one missing any of the three top-level collections —
completes successfully with the missing parts defaulted; the only fatal path is
the attribute error on a non-record input; a missing or unparsable creation
timestamp merely degrades `account_age` to `"Unknown"`. -/
theorem claim_C4_amended (env : Env) (now : DT) :
    (∀ u : UserData, analyze env now (Input.record u) = Except.ok (analyzeRec env now u)) ∧
    analyze env now Input.notRecord = Except.error AnalyzeErr.attributeError ∧
    calculateAccountAge env now none = "Unknown".toList ∧
    (∀ s : Str, ¬ s.isEmpty → env.parseTS s = none →
      calculateAccountAge env now (some s) = "Unknown".toList) := by
  refine ⟨fun u => rfl, rfl, rfl, ?_⟩
  intro s hne hparse
  simp [calculateAccountAge, hne, hparse]

theorem claim_C4_counterexample :
    (analyze trivEnv nowTriv (Input.record ⟨none, none, none⟩) =
      Except.ok (analyzeRec trivEnv nowTriv ⟨none, none, none⟩)) ∧
    (∀ e : AnalyzeErr,
      analyze trivEnv nowTriv (Input.record ⟨none, none, none⟩) ≠ Except.error e) :=
  ⟨rfl, fun e h => Except.noConfusion h⟩

theorem claim_C4_witness :
    (¬ ("x".toList : Str).isEmpty) ∧
    calculateAccountAge trivEnv nowTriv (some "x".toList) = "Unknown".toList :=
  ⟨by decide, (claim_C4_amended trivEnv nowTriv).2.2.2 "x".toList (by decide) rfl⟩

/-! ## Determinism and statelessness of `analyze` (claim C9) -/

/-- Claim C9: with the current time fixed, two engine calls on identical input
return identical personas, and the engine state (its immutable configuration)
is unchanged by each call — the source's methods never assign to `self` outside
`__init__`, which the explicit state threading of `analyzeCall` reflects. -/
theorem claim_C9 (a : Analyzer) (now : DT) (inp1 inp2 : Input) (h : inp1 = inp2) :
    (analyzeCall a now inp1).1 = (analyzeCall (analyzeCall a now inp1).2 now inp2).1 ∧
    (analyzeCall a now inp1).2 = a ∧
    (analyzeCall (analyzeCall a now inp1).2 now inp2).2 = a := by
  subst h
  exact ⟨rfl, rfl, rfl⟩

theorem claim_C9_witness :
    ((Input.record emptyUserData) = (Input.record emptyUserData)) ∧
    ((analyzeCall ⟨trivEnv⟩ nowTriv (Input.record emptyUserData)).1 =
      (analyzeCall (analyzeCall ⟨trivEnv⟩ nowTriv (Input.record emptyUserData)).2 nowTriv
        (Input.record emptyUserData)).1 ∧
     (analyzeCall ⟨trivEnv⟩ nowTriv (Input.record emptyUserData)).2 = ⟨trivEnv⟩ ∧
     (analyzeCall (analyzeCall ⟨trivEnv⟩ nowTriv (Input.record emptyUserData)).2 nowTriv
        (Input.record emptyUserData)).2 = ⟨trivEnv⟩) :=
  ⟨rfl, claim_C9 ⟨trivEnv⟩ nowTriv (Input.record emptyUserData) (Input.record emptyUserData) rfl⟩

end RedditPersona
